import Mathlib

/-!
Verification development for the class-enrollment request workflow of
`src/controllers/classRequestController.js`.

The controller is embedded shallowly: the document database is a `State`
holding the three collections (`ClassRequest`, `Student`, `Class` documents),
identifiers are natural numbers, and each HTTP handler becomes a pure
function from a `State` (plus its request parameters) to an updated `State`
together with a `Result` mirroring the handler's JSON response.  Mongoose
`findById`/`findOne` become list lookups, `save` on a fetched document
becomes an id-keyed in-place replacement, and `findByIdAndDelete` removes
the document with the given id.

Notification dispatch (`Notification.createNotification`) is modelled by a
Boolean input `notifyFails`: `false` means the dispatch succeeds, `true`
means it throws.  Handlers that wrap the dispatch in `try/catch` ignore the
flag (the catch swallows the error); `rejectClassRequest`, which does not
wrap it, propagates the failure to its outer catch and answers with a
server error.

Dangling references (a request whose student or class document is missing)
make the source crash with a `TypeError` that its catch blocks turn into
server errors; the embedding answers the error of the catch block that the
source's first dereference of the missing document lands in, with exactly
the writes the source has performed by that point.  In
`approveClassRequest` this matters: a missing student document with a
nonempty `enrolledStudents` crashes inside the capacity check (before any
write), but with an empty list the capacity check passes it by, the request
is saved as Approved (line 221), and only the membership push (line 230)
crashes — so the handler persists an Approved request with no membership.
In the remaining handlers every such crash happens before any write, so
the state is unchanged either way.
-/

set_option linter.unusedVariables false

namespace ClassRequestController

/-- Status enumeration of a `ClassRequest` (`Pending`/`Approved`/`Rejected`). -/
inductive Status where
  | Pending
  | Approved
  | Rejected
deriving DecidableEq, Repr

/-- Rendering of a status, used in the default admin note of `changeClassRequestStatus`. -/
def Status.toStr : Status → String
  | .Pending => "Pending"
  | .Approved => "Approved"
  | .Rejected => "Rejected"

/-- The `adminResponse` subdocument recorded on moderated requests. -/
structure AdminResponse where
  actionBy : Nat
  actionDate : Nat
  actionNote : String
deriving DecidableEq, Repr

/-- A `ClassRequest` document.  `class_` is the source's `class` field
(reference to a `Class` document); `student` references a `Student`. -/
structure ClassRequest where
  id : Nat
  student : Nat
  class_ : Nat
  reason : String
  status : Status
  adminResponse : Option AdminResponse
deriving DecidableEq, Repr

/-- A `Student` document (only the fields the controller reads). -/
structure Student where
  id : Nat
  userId : Nat
  firstName : String
  lastName : String
  status : String
  enrolledClasses : List Nat
deriving DecidableEq, Repr

/-- A `Class` document (only the fields the controller reads). -/
structure Class where
  id : Nat
  capacity : Nat
  isActive : Bool
  type : String
  grade : String
  category : String
  enrolledStudents : List Nat
deriving DecidableEq, Repr

/-- The document store: the three collections the controller touches. -/
structure State where
  requests : List ClassRequest
  students : List Student
  classes : List Class
deriving DecidableEq, Repr

/-- Lookup by id in a collection (`Model.findById`). -/
def findById (getId : α → Nat) (l : List α) (i : Nat) : Option α :=
  l.find? (fun x => getId x == i)

/-- Persisting a fetched document (`doc.save()`): every stored document with
the same id is replaced by the new version. -/
def saveById (getId : α → Nat) (l : List α) (a : α) : List α :=
  l.map (fun x => if getId x == getId a then a else x)

def findRequest (s : State) (i : Nat) : Option ClassRequest :=
  findById ClassRequest.id s.requests i

def findClass (s : State) (i : Nat) : Option Class :=
  findById Class.id s.classes i

def findStudent (s : State) (i : Nat) : Option Student :=
  findById Student.id s.students i

/-- `Student.findOne({ userId })`. -/
def findStudentByUser (s : State) (uid : Nat) : Option Student :=
  s.students.find? (fun x => x.userId == uid)

def saveRequest (s : State) (r : ClassRequest) : State :=
  { s with requests := saveById ClassRequest.id s.requests r }

def saveClass (s : State) (c : Class) : State :=
  { s with classes := saveById Class.id s.classes c }

def saveStudent (s : State) (st : Student) : State :=
  { s with students := saveById Student.id s.students st }

/-- Error taxonomy of the spec, mapping the handlers' HTTP answers:
404 bodies are `NotFound`, the 400 capacity body is `CapacityExceeded`,
other 400 bodies are `InvalidState`, 403 is `Forbidden`, 500 is
`ServerError`. -/
inductive ErrorKind where
  | NotFound
  | InvalidState
  | CapacityExceeded
  | Forbidden
  | ServerError
deriving DecidableEq, Repr

/-- Outcome of a handler: the JSON payload on success, or a structured error
with the source's human-readable message. -/
inductive Result (α : Type) where
  | ok (val : α)
  | err (kind : ErrorKind) (message : String)
deriving DecidableEq, Repr

/-- Kind of the error, if the result is an error. -/
def Result.errKind? : Result α → Option ErrorKind
  | .ok _ => none
  | .err k _ => some k

/-- Capacity rule shared by `approveClassRequest`, `changeClassRequestStatus`
and `approveAllPendingRequests` (source lines 204-211, 395-402, 498-511):
the add is refused when the student is not already in `enrolledStudents`
and the list is at capacity. -/
abbrev capacityBlocked (cls : Class) (studentId : Nat) : Prop :=
  cls.enrolledStudents.contains studentId = false ∧
    cls.capacity ≤ cls.enrolledStudents.length

/-- Idempotent two-sided membership add, duplicated verbatim in the source at
lines 223-241, 404-420 and 513-529: push the student onto the class's
`enrolledStudents` and the class onto the student's `enrolledClasses`, each
side only if absent, saving each mutated document.  `addClassSide` and
`addStudentSide` are the two halves, composed by `addMembership`. -/
def addClassSide (s : State) (cr : ClassRequest) (cls : Class) : State :=
  if cls.enrolledStudents.contains cr.student = false then
    saveClass s { cls with enrolledStudents := cls.enrolledStudents ++ [cr.student] }
  else s

def addStudentSide (s : State) (cr : ClassRequest) (stu : Student) : State :=
  if stu.enrolledClasses.contains cr.class_ = false then
    saveStudent s { stu with enrolledClasses := stu.enrolledClasses ++ [cr.class_] }
  else s

def addMembership (s : State) (cr : ClassRequest) (cls : Class) (stu : Student) : State :=
  addStudentSide (addClassSide s cr cls) cr stu

/-- `createClassRequest` (source lines 8-78): student-initiated creation of a
Pending request, guarded by the student's registration approval, class
availability, current enrollment, and the no-duplicate-Pending check.  The
fresh document id is passed in as `newId`. -/
def createClassRequest (s : State) (userId classId : Nat) (reason : String) (newId : Nat) :
    State × Result ClassRequest :=
  match findStudentByUser s userId with
  | none => (s, .err .NotFound "Student profile not found")
  | some student =>
    if student.status ≠ "Approved" then
      (s, .err .InvalidState "Student registration must be approved before requesting class enrollment")
    else
      match findClass s classId with
      | none => (s, .err .NotFound "Class not found")
      | some classItem =>
        if ¬ (classItem.isActive = true ∧ classItem.type = "Normal") then
          (s, .err .InvalidState "Class is not available for enrollment")
        else if student.enrolledClasses.contains classId = true then
          (s, .err .InvalidState "Already enrolled in this class")
        else if (s.requests.find? (fun r =>
            r.student == student.id && r.class_ == classId && r.status == Status.Pending)).isSome then
          (s, .err .InvalidState "You already have a pending request for this class")
        else
          let r : ClassRequest :=
            { id := newId, student := student.id, class_ := classId, reason := reason,
              status := .Pending, adminResponse := none }
          ({ s with requests := s.requests ++ [r] }, .ok r)

/-- `approveClassRequest` (source lines 178-273): approve a Pending request.
The request is saved with status Approved before the membership add, the
capacity rule is checked first, and the notification is dispatched inside a
`try/catch`, so `notifyFails` cannot change the outcome.  Dangling
references follow the source's crash sites: a missing class document
crashes the capacity check at line 204 (outer catch, 500 "Server error",
no write); a missing student document crashes the capacity check's `some`
callback at line 206 when `enrolledStudents` is nonempty (same 500, no
write), while with an empty list the callback never runs, the request IS
saved as Approved (line 221), and the push's argument `student._id`
(line 230) then crashes into the enrollment catch (500 "Error enrolling
student in class") with the class document unwritten. -/
def approveClassRequest (notifyFails : Bool) (s : State) (requestId actorId now : Nat)
    (adminNote : Option String) : State × Result ClassRequest :=
  match findRequest s requestId with
  | none => (s, .err .NotFound "Class request not found")
  | some cr =>
    if cr.status ≠ .Pending then (s, .err .InvalidState "Class request is not pending")
    else
      match findClass s cr.class_ with
      | none => (s, .err .ServerError "Server error")
      | some cls =>
        if cls.enrolledStudents.length ≠ 0 ∧ findStudent s cr.student = none then
          (s, .err .ServerError "Server error")
        else if capacityBlocked cls cr.student then
          (s, .err .CapacityExceeded "Class is at full capacity")
        else
          let resp : AdminResponse :=
            { actionBy := actorId, actionDate := now,
              actionNote := adminNote.getD "Request approved" }
          let cr' := { cr with status := Status.Approved, adminResponse := some resp }
          match findStudent s cr.student with
          | none => (saveRequest s cr', .err .ServerError "Error enrolling student in class")
          | some stu => (addMembership (saveRequest s cr') cr cls stu, .ok cr')

/-- `rejectClassRequest` (source lines 276-332): reject a Pending request.
The notification at lines 312-322 is NOT wrapped in `try/catch`, so when it
throws the outer catch answers with a 500 server error, although the
rejection itself has already been saved. -/
def rejectClassRequest (notifyFails : Bool) (s : State) (requestId actorId now : Nat)
    (adminNote : Option String) : State × Result ClassRequest :=
  match findRequest s requestId with
  | none => (s, .err .NotFound "Class request not found")
  | some cr =>
    if cr.status ≠ .Pending then (s, .err .InvalidState "Class request is not pending")
    else
      let resp : AdminResponse :=
        { actionBy := actorId, actionDate := now,
          actionNote := adminNote.getD "Request rejected" }
      let cr' := { cr with status := Status.Rejected, adminResponse := some resp }
      let s1 := saveRequest s cr'
      if notifyFails then (s1, .err .ServerError "Server error") else (s1, .ok cr')

/-- Idempotent two-sided membership removal of `changeClassRequestStatus`
(source lines 362-389): filter the student out of the class's list and the
class out of the student's list, saving each document only when its list
actually shrank; a missing document is skipped (the source's null guards).
`removeClassSide` is the class half (source lines 364-373). -/
def removeClassSide (s : State) (cr : ClassRequest) : State :=
  match findClass s cr.class_ with
  | some cls =>
    let filtered := cls.enrolledStudents.filter (fun i => !(i == cr.student))
    if filtered.length = cls.enrolledStudents.length then s
    else saveClass s { cls with enrolledStudents := filtered }
  | none => s

def removeMembershipChecked (s : State) (cr : ClassRequest) : State :=
  let sA := removeClassSide s cr
  match findStudent s cr.student with
  | some stu =>
    let filtered := stu.enrolledClasses.filter (fun i => !(i == cr.class_))
    if filtered.length = stu.enrolledClasses.length then sA
    else saveStudent sA { stu with enrolledClasses := filtered }
  | none => sA

/-- Final unconditional step of `changeClassRequestStatus` (source lines
427-435): record the new status and admin response and save the request. -/
def finishStatusChange (s : State) (cr : ClassRequest) (oldStatus newStatus : Status)
    (actorId now : Nat) (adminNote : Option String) : State × Result ClassRequest :=
  let resp : AdminResponse :=
    { actionBy := actorId, actionDate := now,
      actionNote := adminNote.getD
        ("Status changed from " ++ oldStatus.toStr ++ " to " ++ newStatus.toStr) }
  let cr' := { cr with status := newStatus, adminResponse := some resp }
  (saveRequest s cr', .ok cr')

/-- `changeClassRequestStatus` (source lines 335-465): general transition.
Approved→non-Approved removes the membership (best effort); non-Approved→
Approved applies the capacity rule and the idempotent add, aborting the
whole operation on capacity failure; in every other case neither list is
touched.  The two membership branches are mutually exclusive in the source
(sequential `if`s with disjoint guards), rendered here as nested `if`s.
The notification is inside `try/catch`, so `notifyFails` is swallowed. -/
def changeClassRequestStatus (notifyFails : Bool) (s : State) (requestId : Nat)
    (status : Status) (actorId now : Nat) (adminNote : Option String) :
    State × Result ClassRequest :=
  match findRequest s requestId with
  | none => (s, .err .NotFound "Class request not found")
  | some cr =>
    let oldStatus := cr.status
    if oldStatus = .Approved ∧ status ≠ .Approved then
      finishStatusChange (removeMembershipChecked s cr) cr oldStatus status actorId now adminNote
    else if oldStatus ≠ .Approved ∧ status = .Approved then
      match findClass s cr.class_, findStudent s cr.student with
      | some cls, some stu =>
        if capacityBlocked cls cr.student then
          (s, .err .CapacityExceeded "Class is at full capacity")
        else
          finishStatusChange (addMembership s cr cls stu) cr oldStatus status actorId now adminNote
      | _, _ => (s, .err .ServerError "Error enrolling student in class")
    else
      finishStatusChange s cr oldStatus status actorId now adminNote

/-- One entry of the bulk-approval failure list. -/
structure FailedRequest where
  studentName : String
  className : String
  reason : String
deriving DecidableEq, Repr

/-- Response payload of `approveAllPendingRequests`; `failedRequests` is
`none` when the source sets the field to `undefined`. -/
structure ApproveAllSummary where
  message : String
  approvedCount : Nat
  failedCount : Nat
  failedRequests : Option (List FailedRequest)
deriving DecidableEq, Repr

/-- Loop body of `approveAllPendingRequests` (source lines 495-569) for one
pending request: capacity failure records a failure entry and leaves the
store untouched; otherwise the idempotent add runs, then the request is
saved as Approved.  A request whose class or student document is missing is
recorded as a "Processing error" failure (in the source the crash while
building the failure labels would surface as a server error). -/
def approveAllStep (actorId now : Nat) (adminNote : Option String)
    (acc : State × Nat × Nat × List FailedRequest) (cr : ClassRequest) :
    State × Nat × Nat × List FailedRequest :=
  let (s, approvedCount, failedCount, failedRequests) := acc
  match findClass s cr.class_, findStudent s cr.student with
  | some cls, some stu =>
    if capacityBlocked cls cr.student then
      (s, approvedCount, failedCount + 1,
        failedRequests ++ [{ studentName := stu.firstName ++ " " ++ stu.lastName,
                             className := cls.grade ++ " - " ++ cls.category,
                             reason := "Class is at full capacity" }])
    else
      let resp : AdminResponse :=
        { actionBy := actorId, actionDate := now,
          actionNote := adminNote.getD "Bulk approval by administrator" }
      let cr' := { cr with status := Status.Approved, adminResponse := some resp }
      (saveRequest (addMembership s cr cls stu) cr', approvedCount + 1, failedCount,
        failedRequests)
  | _, _ =>
    (s, approvedCount, failedCount + 1,
      failedRequests ++ [{ studentName := "", className := "", reason := "Processing error" }])

/-- `approveAllPendingRequests` (source lines 468-586): snapshot the Pending
requests, answer with an error when there are none, otherwise process each
sequentially, accumulating counts and the failure list; the response carries
the failure list only when something failed. -/
def approveAllPendingRequests (notifyFails : Bool) (s : State) (actorId now : Nat)
    (adminNote : Option String) : State × Result ApproveAllSummary :=
  let pendingRequests := s.requests.filter (fun r => r.status == Status.Pending)
  if pendingRequests.length = 0 then
    (s, .err .InvalidState "No pending class requests found")
  else
    let out := pendingRequests.foldl (approveAllStep actorId now adminNote) (s, 0, 0, [])
    let approvedCount := out.2.1
    let failedCount := out.2.2.1
    let failedRequests := out.2.2.2
    let message := s!"Successfully approved {approvedCount} class requests" ++
      (if 0 < failedCount then s!". {failedCount} requests failed to approve." else "")
    (out.1, .ok { message := message, approvedCount := approvedCount,
                  failedCount := failedCount,
                  failedRequests := if 0 < failedCount then some failedRequests else none })

/-- `deleteClassRequest` (source lines 589-627): student-initiated deletion,
allowed only on an own Pending request; the membership lists are never
touched. -/
def deleteClassRequest (s : State) (userId requestId : Nat) : State × Result Unit :=
  match findStudentByUser s userId with
  | none => (s, .err .NotFound "Student profile not found")
  | some student =>
    match findRequest s requestId with
    | none => (s, .err .NotFound "Class request not found")
    | some cr =>
      if cr.student ≠ student.id then
        (s, .err .Forbidden "You can only delete your own class requests")
      else if cr.status ≠ .Pending then
        (s, .err .InvalidState "You can only delete pending class requests")
      else
        ({ s with requests := s.requests.filter (fun r => !(r.id == requestId)) }, .ok ())

/-- Summary answered by `adminDeleteClassRequest`. -/
structure DeletedSummary where
  studentName : String
  className : String
  status : Status
deriving DecidableEq, Repr

/-- `adminDeleteClassRequest` (source lines 630-701): delete a request of any
status; when it was Approved, first remove the two-sided membership (both
removals are skipped when the class document is missing, mirroring the
source's crash inside the guarded `try`; the student-side removal is skipped
when the student document is missing).  The deletion itself always happens;
the summary requires the populated student and class, a missing one turning
the response (but not the deletion) into a server error.
`adminRemoveMembership` is the membership-removal phase (source lines
644-666, with its fresh `findById` lookups and unconditional saves). -/
def adminRemoveMembership (s : State) (cr : ClassRequest) : State :=
  match findClass s cr.class_ with
  | none => s
  | some cls =>
    let sA := saveClass s
      { cls with enrolledStudents := cls.enrolledStudents.filter (fun i => !(i == cr.student)) }
    match findStudent sA cr.student with
    | some stu =>
      saveStudent sA
        { stu with enrolledClasses := stu.enrolledClasses.filter (fun i => !(i == cr.class_)) }
    | none => sA

def adminDeleteClassRequest (notifyFails : Bool) (s : State) (requestId : Nat) :
    State × Result DeletedSummary :=
  match findRequest s requestId with
  | none => (s, .err .NotFound "Class request not found")
  | some cr =>
    let s1 := if cr.status = .Approved then adminRemoveMembership s cr else s
    let s2 := { s1 with requests := s1.requests.filter (fun r => !(r.id == requestId)) }
    match findStudent s cr.student, findClass s cr.class_ with
    | some stu, some cls =>
      (s2, .ok { studentName := stu.firstName ++ " " ++ stu.lastName,
                 className := cls.grade ++ " - " ++ cls.category, status := cr.status })
    | _, _ => (s2, .err .ServerError "Server error")

/-- One coordinator operation, covering every mutating endpoint of the
controller.  Identifier generation for `createClassRequest` and the clock
are inputs of the operation. -/
inductive Op where
  | createReq (userId classId : Nat) (reason : String) (newId : Nat)
  | approveReq (nf : Bool) (requestId actorId now : Nat) (note : Option String)
  | rejectReq (nf : Bool) (requestId actorId now : Nat) (note : Option String)
  | changeStatus (nf : Bool) (requestId : Nat) (newStatus : Status) (actorId now : Nat)
      (note : Option String)
  | approveAll (nf : Bool) (actorId now : Nat) (note : Option String)
  | studentDelete (userId requestId : Nat)
  | adminDelete (nf : Bool) (requestId : Nat)
deriving DecidableEq, Repr

/-- Effect of one coordinator operation on the store. -/
def applyOp (s : State) : Op → State
  | .createReq u c r i => (createClassRequest s u c r i).1
  | .approveReq nf rid a t note => (approveClassRequest nf s rid a t note).1
  | .rejectReq nf rid a t note => (rejectClassRequest nf s rid a t note).1
  | .changeStatus nf rid st a t note => (changeClassRequestStatus nf s rid st a t note).1
  | .approveAll nf a t note => (approveAllPendingRequests nf s a t note).1
  | .studentDelete u rid => (deleteClassRequest s u rid).1
  | .adminDelete nf rid => (adminDeleteClassRequest nf s rid).1

/-- Effect of a sequence of coordinator operations. -/
def applyOps (s : State) (ops : List Op) : State :=
  ops.foldl applyOp s

/-- Whether an operation is an `approve` or a `changeStatus` into `Approved`. -/
def Op.approvesOnly : Op → Bool
  | .approveReq .. => true
  | .changeStatus _ _ newStatus _ _ _ => newStatus == Status.Approved
  | _ => false

/-- Capacity invariant of the spec: every class holds at most `capacity`
enrolled students. -/
def CapInv (s : State) : Prop :=
  ∀ c ∈ s.classes, c.enrolledStudents.length ≤ c.capacity

/-- Bidirectional membership of a (student, class) pair: the student appears
in the class's `enrolledStudents` and the class in the student's
`enrolledClasses`. -/
def hasMembership (s : State) (stuId clsId : Nat) : Bool :=
  (Option.any (fun c => c.enrolledStudents.contains stuId) (findClass s clsId)) &&
  (Option.any (fun st => st.enrolledClasses.contains clsId) (findStudent s stuId))

/-- Both sides of a (student, class) membership are absent. -/
def pairRemoved (s : State) (stuId clsId : Nat) : Bool :=
  (Option.all (fun c => !(c.enrolledStudents.contains stuId)) (findClass s clsId)) &&
  (Option.all (fun st => !(st.enrolledClasses.contains clsId)) (findStudent s stuId))

/-- Relationship invariant of the spec: every Approved request has its
bidirectional membership. -/
def RelInv (s : State) : Prop :=
  ∀ r ∈ s.requests, r.status = Status.Approved → hasMembership s r.student r.class_ = true

/-- At most one request exists per (student, class) pair. -/
def PairUnique (s : State) : Prop :=
  (s.requests.map (fun r => (r.student, r.class_))).Nodup

/-- Every student's `enrolledClasses` and every class's `enrolledStudents`
is duplicate-free. -/
def NodupLists (s : State) : Prop :=
  (∀ stu ∈ s.students, stu.enrolledClasses.Nodup) ∧
  (∀ c ∈ s.classes, c.enrolledStudents.Nodup)

/-- Referential integrity: every request's class and student documents exist
in the store.  Outside this region `approveClassRequest` can persist an
Approved request and then crash before the membership add (source lines 221
and 230), so the relationship invariant is not preserved without it. -/
def WfRefs (s : State) : Prop :=
  ∀ r ∈ s.requests, (findClass s r.class_).isSome ∧ (findStudent s r.student).isSome

instance (s : State) : Decidable (CapInv s) :=
  inferInstanceAs (Decidable (∀ c ∈ s.classes, c.enrolledStudents.length ≤ c.capacity))

instance (s : State) : Decidable (RelInv s) :=
  inferInstanceAs (Decidable
    (∀ r ∈ s.requests, r.status = Status.Approved → hasMembership s r.student r.class_ = true))

instance (s : State) : Decidable (PairUnique s) :=
  inferInstanceAs (Decidable ((s.requests.map (fun r : ClassRequest => (r.student, r.class_))).Nodup))

instance (s : State) : Decidable (NodupLists s) :=
  inferInstanceAs (Decidable ((∀ stu ∈ s.students, stu.enrolledClasses.Nodup) ∧
    (∀ c ∈ s.classes, c.enrolledStudents.Nodup)))

instance (s : State) : Decidable (WfRefs s) :=
  inferInstanceAs (Decidable
    (∀ r ∈ s.requests, (findClass s r.class_).isSome ∧ (findStudent s r.student).isSome))

/-! ## Store lemmas -/

theorem findById_saveById (getId : α → Nat) (a : α) (i : Nat) (l : List α) :
    findById getId (saveById getId l a) i =
      if i = getId a then (findById getId l i).map (fun _ => a) else findById getId l i := by
  unfold findById saveById
  rw [List.find?_map]
  have hpred : ((fun x => getId x == i) ∘ fun x => if getId x == getId a then a else x) =
      (fun x => getId x == i) := by
    funext x
    by_cases hxa : getId x = getId a
    · simp [Function.comp, hxa]
    · simp [Function.comp, hxa]
  rw [hpred]
  by_cases hia : i = getId a
  · subst hia
    cases hfind : List.find? (fun x => getId x == getId a) l with
    | none => simp
    | some y =>
      have hy : getId y = getId a := by simpa using List.find?_some hfind
      simp [hy]
  · cases hfind : List.find? (fun x => getId x == i) l with
    | none => simp [hia]
    | some y =>
      have hy : getId y = i := by simpa using List.find?_some hfind
      have hya : ¬ getId y = getId a := fun h => hia (by rw [← hy, h])
      simp [hia, hya]

theorem findById_id {getId : α → Nat} {l : List α} {i : Nat} {a : α}
    (h : findById getId l i = some a) : getId a = i := by
  have := List.find?_some h
  simpa using this

theorem findById_mem {getId : α → Nat} {l : List α} {i : Nat} {a : α}
    (h : findById getId l i = some a) : a ∈ l :=
  List.mem_of_find?_eq_some h

theorem mem_saveById {getId : α → Nat} {l : List α} {a x : α}
    (h : x ∈ saveById getId l a) : x = a ∨ (x ∈ l ∧ getId x ≠ getId a) := by
  obtain ⟨y, hy, hfy⟩ := List.mem_map.mp h
  by_cases hya : getId y = getId a
  · left
    simpa [hya] using hfy.symm
  · right
    have hxy : x = y := by simpa [hya] using hfy.symm
    exact ⟨hxy ▸ hy, by simpa [hxy] using hya⟩

@[simp] theorem findRequest_saveClass (s : State) (c : Class) (i : Nat) :
    findRequest (saveClass s c) i = findRequest s i := rfl

@[simp] theorem findRequest_saveStudent (s : State) (st : Student) (i : Nat) :
    findRequest (saveStudent s st) i = findRequest s i := rfl

@[simp] theorem findClass_saveRequest (s : State) (r : ClassRequest) (i : Nat) :
    findClass (saveRequest s r) i = findClass s i := rfl

@[simp] theorem findClass_saveStudent (s : State) (st : Student) (i : Nat) :
    findClass (saveStudent s st) i = findClass s i := rfl

@[simp] theorem findStudent_saveRequest (s : State) (r : ClassRequest) (i : Nat) :
    findStudent (saveRequest s r) i = findStudent s i := rfl

@[simp] theorem findStudent_saveClass (s : State) (c : Class) (i : Nat) :
    findStudent (saveClass s c) i = findStudent s i := rfl

@[simp] theorem findClass_requestsSet (s : State) (l : List ClassRequest) (i : Nat) :
    findClass { s with requests := l } i = findClass s i := rfl

@[simp] theorem findStudent_requestsSet (s : State) (l : List ClassRequest) (i : Nat) :
    findStudent { s with requests := l } i = findStudent s i := rfl

theorem findRequest_saveRequest (s : State) (r : ClassRequest) (i : Nat) :
    findRequest (saveRequest s r) i =
      if i = r.id then (findRequest s i).map (fun _ => r) else findRequest s i :=
  findById_saveById ClassRequest.id r i s.requests

theorem findClass_saveClass (s : State) (c : Class) (i : Nat) :
    findClass (saveClass s c) i =
      if i = c.id then (findClass s i).map (fun _ => c) else findClass s i :=
  findById_saveById Class.id c i s.classes

theorem findStudent_saveStudent (s : State) (st : Student) (i : Nat) :
    findStudent (saveStudent s st) i =
      if i = st.id then (findStudent s i).map (fun _ => st) else findStudent s i :=
  findById_saveById Student.id st i s.students

/-! ## Capacity invariant preservation -/

theorem capInv_saveClass {s : State} {c : Class} (h : CapInv s)
    (hc : c.enrolledStudents.length ≤ c.capacity) : CapInv (saveClass s c) := by
  intro c' hc'
  rcases mem_saveById hc' with rfl | ⟨hmem, _⟩
  · exact hc
  · exact h c' hmem

theorem capInv_saveRequest {s : State} {r : ClassRequest} (h : CapInv s) :
    CapInv (saveRequest s r) := h

theorem capInv_saveStudent {s : State} {st : Student} (h : CapInv s) :
    CapInv (saveStudent s st) := h

/-! ## Branch equations for the handlers -/

/-- Document written by a successful `approveClassRequest`. -/
def approvedDoc (cr : ClassRequest) (actorId now : Nat) (note : Option String) : ClassRequest :=
  { cr with
    status := Status.Approved,
    adminResponse := some { actionBy := actorId, actionDate := now,
                            actionNote := note.getD "Request approved" } }

/-- Document written by a successful `changeClassRequestStatus`. -/
def statusChangedDoc (cr : ClassRequest) (st : Status) (actorId now : Nat)
    (note : Option String) : ClassRequest :=
  { cr with
    status := st,
    adminResponse := some { actionBy := actorId, actionDate := now,
                            actionNote := note.getD
                              ("Status changed from " ++ cr.status.toStr ++ " to " ++ st.toStr) } }

theorem approve_eq_notFound {s : State} {rid : Nat} (nf : Bool) (a t : Nat)
    (note : Option String) (hr : findRequest s rid = none) :
    approveClassRequest nf s rid a t note = (s, .err .NotFound "Class request not found") := by
  unfold approveClassRequest
  rw [hr]

theorem approve_eq_notPending {s : State} {rid : Nat} {cr : ClassRequest} (nf : Bool)
    (a t : Nat) (note : Option String) (hr : findRequest s rid = some cr)
    (hp : cr.status ≠ Status.Pending) :
    approveClassRequest nf s rid a t note =
      (s, .err .InvalidState "Class request is not pending") := by
  unfold approveClassRequest
  rw [hr]
  dsimp only
  rw [if_pos hp]

theorem approve_eq_classMissing {s : State} {rid : Nat} {cr : ClassRequest} (nf : Bool)
    (a t : Nat) (note : Option String) (hr : findRequest s rid = some cr)
    (hp : cr.status = Status.Pending)
    (hc : findClass s cr.class_ = none) :
    approveClassRequest nf s rid a t note = (s, .err .ServerError "Server error") := by
  unfold approveClassRequest
  rw [hr]
  dsimp only
  rw [if_neg (by simp [hp]), hc]

theorem approve_eq_studentMissing_guard {s : State} {rid : Nat} {cr : ClassRequest}
    {cls : Class} (nf : Bool) (a t : Nat) (note : Option String)
    (hr : findRequest s rid = some cr) (hp : cr.status = Status.Pending)
    (hc : findClass s cr.class_ = some cls) (hs : findStudent s cr.student = none)
    (hlen : cls.enrolledStudents.length ≠ 0) :
    approveClassRequest nf s rid a t note = (s, .err .ServerError "Server error") := by
  unfold approveClassRequest
  rw [hr]
  dsimp only
  rw [if_neg (by simp [hp]), hc]
  dsimp only
  rw [if_pos ⟨hlen, hs⟩]

theorem approve_eq_studentMissing_saved {s : State} {rid : Nat} {cr : ClassRequest}
    {cls : Class} (nf : Bool) (a t : Nat) (note : Option String)
    (hr : findRequest s rid = some cr) (hp : cr.status = Status.Pending)
    (hc : findClass s cr.class_ = some cls) (hs : findStudent s cr.student = none)
    (hlen : cls.enrolledStudents.length = 0) (hnb : ¬ capacityBlocked cls cr.student) :
    approveClassRequest nf s rid a t note =
      (saveRequest s (approvedDoc cr a t note),
        .err .ServerError "Error enrolling student in class") := by
  unfold approveClassRequest
  rw [hr]
  dsimp only
  rw [if_neg (by simp [hp]), hc]
  dsimp only
  rw [if_neg (fun hcon => hcon.1 hlen), if_neg hnb, hs]
  rfl

theorem approve_eq_blocked {s : State} {rid : Nat} {cr : ClassRequest} {cls : Class}
    (nf : Bool) (a t : Nat) (note : Option String)
    (hr : findRequest s rid = some cr) (hp : cr.status = Status.Pending)
    (hc : findClass s cr.class_ = some cls)
    (hguard : ¬ (cls.enrolledStudents.length ≠ 0 ∧ findStudent s cr.student = none))
    (hb : capacityBlocked cls cr.student) :
    approveClassRequest nf s rid a t note =
      (s, .err .CapacityExceeded "Class is at full capacity") := by
  unfold approveClassRequest
  rw [hr]
  dsimp only
  rw [if_neg (by simp [hp]), hc]
  dsimp only
  rw [if_neg hguard, if_pos hb]

theorem approve_eq_ok {s : State} {rid : Nat} {cr : ClassRequest} {cls : Class}
    {stu : Student} (nf : Bool) (a t : Nat) (note : Option String)
    (hr : findRequest s rid = some cr) (hp : cr.status = Status.Pending)
    (hc : findClass s cr.class_ = some cls) (hs : findStudent s cr.student = some stu)
    (hnb : ¬ capacityBlocked cls cr.student) :
    approveClassRequest nf s rid a t note =
      (addMembership (saveRequest s (approvedDoc cr a t note)) cr cls stu,
        .ok (approvedDoc cr a t note)) := by
  unfold approveClassRequest
  rw [hr]
  dsimp only
  rw [if_neg (by simp [hp]), hc]
  dsimp only
  rw [if_neg (by rw [hs]; simp), if_neg hnb, hs]
  rfl

theorem changeStatus_eq_notFound {s : State} {rid : Nat} (nf : Bool) (st : Status)
    (a t : Nat) (note : Option String) (hr : findRequest s rid = none) :
    changeClassRequestStatus nf s rid st a t note =
      (s, .err .NotFound "Class request not found") := by
  unfold changeClassRequestStatus
  rw [hr]

theorem changeStatus_eq_remove {s : State} {rid : Nat} {cr : ClassRequest} (nf : Bool)
    (st : Status) (a t : Nat) (note : Option String) (hr : findRequest s rid = some cr)
    (h1 : cr.status = Status.Approved ∧ st ≠ Status.Approved) :
    changeClassRequestStatus nf s rid st a t note =
      (saveRequest (removeMembershipChecked s cr) (statusChangedDoc cr st a t note),
        .ok (statusChangedDoc cr st a t note)) := by
  unfold changeClassRequestStatus
  rw [hr]
  dsimp only
  rw [if_pos h1]
  rfl

theorem changeStatus_eq_add_missing {s : State} {rid : Nat} {cr : ClassRequest} (nf : Bool)
    (st : Status) (a t : Nat) (note : Option String) (hr : findRequest s rid = some cr)
    (h2 : cr.status ≠ Status.Approved ∧ st = Status.Approved)
    (hmiss : findClass s cr.class_ = none ∨ findStudent s cr.student = none) :
    changeClassRequestStatus nf s rid st a t note =
      (s, .err .ServerError "Error enrolling student in class") := by
  unfold changeClassRequestStatus
  rw [hr]
  dsimp only
  rw [if_neg (fun h => h2.1 h.1), if_pos h2]
  rcases hmiss with hc | hs
  · rw [hc]
  · rw [hs]
    cases findClass s cr.class_ <;> rfl

theorem changeStatus_eq_add_blocked {s : State} {rid : Nat} {cr : ClassRequest} {cls : Class}
    {stu : Student} (nf : Bool) (st : Status) (a t : Nat) (note : Option String)
    (hr : findRequest s rid = some cr) (h2 : cr.status ≠ Status.Approved ∧ st = Status.Approved)
    (hc : findClass s cr.class_ = some cls) (hs : findStudent s cr.student = some stu)
    (hb : capacityBlocked cls cr.student) :
    changeClassRequestStatus nf s rid st a t note =
      (s, .err .CapacityExceeded "Class is at full capacity") := by
  unfold changeClassRequestStatus
  rw [hr]
  dsimp only
  rw [if_neg (fun h => h2.1 h.1), if_pos h2, hc, hs]
  dsimp only
  rw [if_pos hb]

theorem changeStatus_eq_add_ok {s : State} {rid : Nat} {cr : ClassRequest} {cls : Class}
    {stu : Student} (nf : Bool) (st : Status) (a t : Nat) (note : Option String)
    (hr : findRequest s rid = some cr) (h2 : cr.status ≠ Status.Approved ∧ st = Status.Approved)
    (hc : findClass s cr.class_ = some cls) (hs : findStudent s cr.student = some stu)
    (hnb : ¬ capacityBlocked cls cr.student) :
    changeClassRequestStatus nf s rid st a t note =
      (saveRequest (addMembership s cr cls stu) (statusChangedDoc cr st a t note),
        .ok (statusChangedDoc cr st a t note)) := by
  unfold changeClassRequestStatus
  rw [hr]
  dsimp only
  rw [if_neg (fun h => h2.1 h.1), if_pos h2, hc, hs]
  dsimp only
  rw [if_neg hnb]
  rfl

theorem changeStatus_eq_frame {s : State} {rid : Nat} {cr : ClassRequest} (nf : Bool)
    (st : Status) (a t : Nat) (note : Option String) (hr : findRequest s rid = some cr)
    (h3 : cr.status = Status.Approved ↔ st = Status.Approved) :
    changeClassRequestStatus nf s rid st a t note =
      (saveRequest s (statusChangedDoc cr st a t note),
        .ok (statusChangedDoc cr st a t note)) := by
  unfold changeClassRequestStatus
  rw [hr]
  dsimp only
  rw [if_neg (fun h => h.2 (h3.mp h.1)), if_neg (fun h => h.1 (h3.mpr h.2))]
  rfl

/-! ## Capacity invariant: the membership edits -/

theorem capInv_addClassSide {s : State} {cr : ClassRequest} {cls : Class}
    (h : CapInv s) (hnb : ¬ capacityBlocked cls cr.student) :
    CapInv (addClassSide s cr cls) := by
  unfold addClassSide
  by_cases h1 : cls.enrolledStudents.contains cr.student = false
  · have hlt : cls.enrolledStudents.length < cls.capacity := by
      by_contra hge
      exact hnb ⟨h1, Nat.le_of_not_lt hge⟩
    rw [if_pos h1]
    refine capInv_saveClass h ?_
    simpa using Nat.succ_le_of_lt hlt
  · rw [if_neg h1]
    exact h

theorem capInv_addStudentSide {s : State} {cr : ClassRequest} {stu : Student}
    (h : CapInv s) : CapInv (addStudentSide s cr stu) := by
  unfold addStudentSide
  by_cases h2 : stu.enrolledClasses.contains cr.class_ = false
  · rw [if_pos h2]
    exact capInv_saveStudent h
  · rw [if_neg h2]
    exact h

theorem capInv_addMembership {s : State} {cr : ClassRequest} {cls : Class} {stu : Student}
    (h : CapInv s) (hnb : ¬ capacityBlocked cls cr.student) :
    CapInv (addMembership s cr cls stu) :=
  capInv_addStudentSide (capInv_addClassSide h hnb)

theorem capInv_removeClassSide {s : State} {cr : ClassRequest} (h : CapInv s) :
    CapInv (removeClassSide s cr) := by
  unfold removeClassSide
  cases hc : findClass s cr.class_ with
  | none => exact h
  | some cls =>
    dsimp only
    by_cases hlen : (cls.enrolledStudents.filter (fun i => !(i == cr.student))).length =
        cls.enrolledStudents.length
    · rw [if_pos hlen]
      exact h
    · rw [if_neg hlen]
      refine capInv_saveClass h ?_
      exact le_trans (List.length_filter_le _ _) (h cls (findById_mem hc))

theorem capInv_removeMembershipChecked {s : State} {cr : ClassRequest} (h : CapInv s) :
    CapInv (removeMembershipChecked s cr) := by
  unfold removeMembershipChecked
  cases hs : findStudent s cr.student with
  | none => exact capInv_removeClassSide h
  | some stu =>
    dsimp only
    by_cases hlen : (stu.enrolledClasses.filter (fun i => !(i == cr.class_))).length =
        stu.enrolledClasses.length
    · rw [if_pos hlen]
      exact capInv_removeClassSide h
    · rw [if_neg hlen]
      exact capInv_saveStudent (capInv_removeClassSide h)

theorem capInv_approveClassRequest (nf : Bool) (s : State) (rid a t : Nat)
    (note : Option String) (h : CapInv s) :
    CapInv (approveClassRequest nf s rid a t note).1 := by
  cases hr : findRequest s rid with
  | none => rw [approve_eq_notFound nf a t note hr]; exact h
  | some cr =>
    by_cases hp : cr.status = Status.Pending
    · cases hc : findClass s cr.class_ with
      | none => rw [approve_eq_classMissing nf a t note hr hp hc]; exact h
      | some cls =>
        cases hs : findStudent s cr.student with
        | none =>
          by_cases hlen : cls.enrolledStudents.length = 0
          · by_cases hb : capacityBlocked cls cr.student
            · rw [approve_eq_blocked nf a t note hr hp hc (fun hcon => hcon.1 hlen) hb]
              exact h
            · rw [approve_eq_studentMissing_saved nf a t note hr hp hc hs hlen hb]
              exact capInv_saveRequest h
          · rw [approve_eq_studentMissing_guard nf a t note hr hp hc hs hlen]; exact h
        | some stu =>
          by_cases hb : capacityBlocked cls cr.student
          · rw [approve_eq_blocked nf a t note hr hp hc (by rw [hs]; simp) hb]; exact h
          · rw [approve_eq_ok nf a t note hr hp hc hs hb]
            exact capInv_addMembership (capInv_saveRequest h) hb
    · rw [approve_eq_notPending nf a t note hr hp]; exact h

theorem capInv_changeClassRequestStatus (nf : Bool) (s : State) (rid : Nat) (st : Status)
    (a t : Nat) (note : Option String) (h : CapInv s) :
    CapInv (changeClassRequestStatus nf s rid st a t note).1 := by
  cases hr : findRequest s rid with
  | none => rw [changeStatus_eq_notFound nf st a t note hr]; exact h
  | some cr =>
    by_cases h1 : cr.status = Status.Approved ∧ st ≠ Status.Approved
    · rw [changeStatus_eq_remove nf st a t note hr h1]
      exact capInv_saveRequest (capInv_removeMembershipChecked h)
    · by_cases h2 : cr.status ≠ Status.Approved ∧ st = Status.Approved
      · cases hc : findClass s cr.class_ with
        | none => rw [changeStatus_eq_add_missing nf st a t note hr h2 (Or.inl hc)]; exact h
        | some cls =>
          cases hs : findStudent s cr.student with
          | none => rw [changeStatus_eq_add_missing nf st a t note hr h2 (Or.inr hs)]; exact h
          | some stu =>
            by_cases hb : capacityBlocked cls cr.student
            · rw [changeStatus_eq_add_blocked nf st a t note hr h2 hc hs hb]; exact h
            · rw [changeStatus_eq_add_ok nf st a t note hr h2 hc hs hb]
              exact capInv_saveRequest (capInv_addMembership h hb)
      · have h3 : cr.status = Status.Approved ↔ st = Status.Approved := by tauto
        rw [changeStatus_eq_frame nf st a t note hr h3]
        exact capInv_saveRequest h

/-- Restriction of an operation sequence to `approve` and
changeStatus-into-Approved operations. -/
def OpsOnlyApprove (ops : List Op) : Prop :=
  ∀ op ∈ ops, op.approvesOnly = true

instance (ops : List Op) : Decidable (OpsOnlyApprove ops) :=
  inferInstanceAs (Decidable (∀ op ∈ ops, op.approvesOnly = true))

/-- C1: for every class with capacity K, after any sequence of approve and
changeStatus-to-Approved operations applied by the coordinator, the length
of that class's `enrolledStudents` list is at most K (each such operation
refuses the add when the student is not already a member and the current
count is at least the capacity). -/
theorem capacity_invariant (s : State) (ops : List Op)
    (hops : OpsOnlyApprove ops) (hinv : CapInv s) :
    CapInv (applyOps s ops) := by
  induction ops generalizing s with
  | nil => exact hinv
  | cons op rest ih =>
    have hop : op.approvesOnly = true := hops op (by simp)
    have hrest : OpsOnlyApprove rest := fun o ho => hops o (by simp [ho])
    have hstep : CapInv (applyOp s op) := by
      cases op with
      | approveReq nf rid a t note => exact capInv_approveClassRequest nf s rid a t note hinv
      | changeStatus nf rid st a t note =>
        exact capInv_changeClassRequestStatus nf s rid st a t note hinv
      | createReq u c r i => simp [Op.approvesOnly] at hop
      | rejectReq nf rid a t note => simp [Op.approvesOnly] at hop
      | approveAll nf a t note => simp [Op.approvesOnly] at hop
      | studentDelete u rid => simp [Op.approvesOnly] at hop
      | adminDelete nf rid => simp [Op.approvesOnly] at hop
    simpa [applyOps, List.foldl] using ih (applyOp s op) hrest hstep

def stateC1 : State :=
  { requests := [{ id := 100, student := 1, class_ := 2, reason := "", status := .Pending,
                   adminResponse := none },
                 { id := 101, student := 3, class_ := 2, reason := "", status := .Pending,
                   adminResponse := none }],
    students := [{ id := 1, userId := 10, firstName := "A", lastName := "B",
                   status := "Approved", enrolledClasses := [] },
                 { id := 3, userId := 11, firstName := "C", lastName := "D",
                   status := "Approved", enrolledClasses := [] }],
    classes := [{ id := 2, capacity := 1, isActive := true, type := "Normal",
                  grade := "10", category := "Theory", enrolledStudents := [] }] }

def opsC1 : List Op :=
  [.approveReq false 100 9 0 none, .changeStatus false 101 Status.Approved 9 1 none]

/-- Witness for C1: a concrete capacity-1 class, one approval filling it and
one changeStatus-to-Approved refused by the capacity rule. -/
theorem capacity_invariant_witness :
    OpsOnlyApprove opsC1 ∧ CapInv stateC1 ∧ CapInv (applyOps stateC1 opsC1) :=
  ⟨by decide, by decide, capacity_invariant stateC1 opsC1 (by decide) (by decide)⟩

/-- C10: `changeClassRequestStatus` accepts any current status — it never
fails with `InvalidState` for any (oldStatus, newStatus) pair, including
`newStatus` equal to `oldStatus` — and whenever `oldStatus` and `newStatus`
are both Approved or both non-Approved, the membership lists are untouched
(the whole state change is the id-keyed save of the request with only its
`status` and `adminResponse` fields updated, so every student's
`enrolledClasses` and every class's `enrolledStudents` is unchanged). -/
theorem changeStatus_no_invalidState_and_frame :
    (∀ (nf : Bool) (s : State) (rid : Nat) (st : Status) (a t : Nat) (note : Option String),
      (changeClassRequestStatus nf s rid st a t note).2.errKind? ≠ some ErrorKind.InvalidState) ∧
    (∀ (nf : Bool) (s : State) (rid : Nat) (st : Status) (a t : Nat) (note : Option String)
      (cr : ClassRequest), findRequest s rid = some cr →
      (cr.status = Status.Approved ↔ st = Status.Approved) →
      changeClassRequestStatus nf s rid st a t note =
        (saveRequest s (statusChangedDoc cr st a t note), .ok (statusChangedDoc cr st a t note)) ∧
      (saveRequest s (statusChangedDoc cr st a t note)).students = s.students ∧
      (saveRequest s (statusChangedDoc cr st a t note)).classes = s.classes) := by
  constructor
  · intro nf s rid st a t note
    cases hr : findRequest s rid with
    | none => rw [changeStatus_eq_notFound nf st a t note hr]; simp [Result.errKind?]
    | some cr =>
      by_cases h1 : cr.status = Status.Approved ∧ st ≠ Status.Approved
      · rw [changeStatus_eq_remove nf st a t note hr h1]; simp [Result.errKind?]
      · by_cases h2 : cr.status ≠ Status.Approved ∧ st = Status.Approved
        · cases hc : findClass s cr.class_ with
          | none =>
            rw [changeStatus_eq_add_missing nf st a t note hr h2 (Or.inl hc)]
            simp [Result.errKind?]
          | some cls =>
            cases hs : findStudent s cr.student with
            | none =>
              rw [changeStatus_eq_add_missing nf st a t note hr h2 (Or.inr hs)]
              simp [Result.errKind?]
            | some stu =>
              by_cases hb : capacityBlocked cls cr.student
              · rw [changeStatus_eq_add_blocked nf st a t note hr h2 hc hs hb]
                simp [Result.errKind?]
              · rw [changeStatus_eq_add_ok nf st a t note hr h2 hc hs hb]
                simp [Result.errKind?]
        · have h3 : cr.status = Status.Approved ↔ st = Status.Approved := by tauto
          rw [changeStatus_eq_frame nf st a t note hr h3]
          simp [Result.errKind?]
  · intro nf s rid st a t note cr hr h3
    exact ⟨changeStatus_eq_frame nf st a t note hr h3, rfl, rfl⟩

def stateC10 : State :=
  { requests := [{ id := 100, student := 1, class_ := 2, reason := "", status := .Rejected,
                   adminResponse := none }],
    students := [{ id := 1, userId := 10, firstName := "A", lastName := "B",
                   status := "Approved", enrolledClasses := [] }],
    classes := [{ id := 2, capacity := 1, isActive := true, type := "Normal",
                  grade := "10", category := "Theory", enrolledStudents := [] }] }

/-- Witness for C10: a Rejected→Pending transition (both non-Approved)
succeeds without `InvalidState` and only rewrites the request document. -/
theorem changeStatus_no_invalidState_and_frame_witness :
    changeClassRequestStatus false stateC10 100 Status.Pending 9 5 none =
      (saveRequest stateC10 (statusChangedDoc
        { id := 100, student := 1, class_ := 2, reason := "", status := .Rejected,
          adminResponse := none } Status.Pending 9 5 none),
       .ok (statusChangedDoc
        { id := 100, student := 1, class_ := 2, reason := "", status := .Rejected,
          adminResponse := none } Status.Pending 9 5 none)) :=
  (changeStatus_no_invalidState_and_frame.2 false stateC10 100 Status.Pending 9 5 none
    { id := 100, student := 1, class_ := 2, reason := "", status := .Rejected,
      adminResponse := none } (by decide) (by decide)).1

/-- C6: when `changeClassRequestStatus` is called with newStatus Approved on
a request whose status is not Approved and the capacity check fails (the
student is not already a member and the enrolled count is at capacity), the
whole operation aborts with `CapacityExceeded` and the state — the
request's status and adminResponse and both membership lists — is entirely
unchanged. -/
theorem changeStatus_capacity_abort (nf : Bool) (s : State) (rid a t : Nat)
    (note : Option String) (cr : ClassRequest) (cls : Class) (stu : Student)
    (hr : findRequest s rid = some cr) (hold : cr.status ≠ Status.Approved)
    (hc : findClass s cr.class_ = some cls) (hs : findStudent s cr.student = some stu)
    (hnm : cls.enrolledStudents.contains cr.student = false)
    (hfull : cls.capacity ≤ cls.enrolledStudents.length) :
    changeClassRequestStatus nf s rid Status.Approved a t note =
      (s, .err .CapacityExceeded "Class is at full capacity") :=
  changeStatus_eq_add_blocked nf Status.Approved a t note hr ⟨hold, rfl⟩ hc hs ⟨hnm, hfull⟩

def stateC6 : State :=
  { requests := [{ id := 100, student := 1, class_ := 2, reason := "", status := .Pending,
                   adminResponse := none }],
    students := [{ id := 1, userId := 10, firstName := "A", lastName := "B",
                   status := "Approved", enrolledClasses := [] }],
    classes := [{ id := 2, capacity := 1, isActive := true, type := "Normal",
                  grade := "10", category := "Theory", enrolledStudents := [7] }] }

/-- Witness for C6: a full capacity-1 class makes the Pending→Approved
transition abort with the capacity error and no state change. -/
theorem changeStatus_capacity_abort_witness :
    changeClassRequestStatus false stateC6 100 Status.Approved 9 5 none =
      (stateC6, .err .CapacityExceeded "Class is at full capacity") :=
  changeStatus_capacity_abort false stateC6 100 9 5 none
    { id := 100, student := 1, class_ := 2, reason := "", status := .Pending,
      adminResponse := none }
    { id := 2, capacity := 1, isActive := true, type := "Normal",
      grade := "10", category := "Theory", enrolledStudents := [7] }
    { id := 1, userId := 10, firstName := "A", lastName := "B",
      status := "Approved", enrolledClasses := [] }
    (by decide) (by decide) (by decide) (by decide) (by decide) (by decide)

/-! ## No-duplicate (Nodup) preservation -/

theorem contains_filter_ne_self (l : List Nat) (x : Nat) :
    (l.filter (fun i => !(i == x))).contains x = false := by
  simp

theorem not_mem_of_contains_eq_false {l : List Nat} {x : Nat}
    (h : l.contains x = false) : x ∉ l := by
  simpa using h

theorem nodup_saveClass {s : State} {c : Class} (h : NodupLists s)
    (hc : c.enrolledStudents.Nodup) : NodupLists (saveClass s c) := by
  refine ⟨h.1, ?_⟩
  intro c' hc'
  rcases mem_saveById hc' with rfl | ⟨hmem, _⟩
  · exact hc
  · exact h.2 c' hmem

theorem nodup_saveStudent {s : State} {st : Student} (h : NodupLists s)
    (hst : st.enrolledClasses.Nodup) : NodupLists (saveStudent s st) := by
  refine ⟨?_, h.2⟩
  intro st' hst'
  rcases mem_saveById hst' with rfl | ⟨hmem, _⟩
  · exact hst
  · exact h.1 st' hmem

theorem nodup_saveRequest {s : State} {r : ClassRequest} (h : NodupLists s) :
    NodupLists (saveRequest s r) := h

theorem nodup_addClassSide {s : State} {cr : ClassRequest} {cls : Class}
    (h : NodupLists s) (hcls : cls.enrolledStudents.Nodup) :
    NodupLists (addClassSide s cr cls) := by
  unfold addClassSide
  by_cases h1 : cls.enrolledStudents.contains cr.student = false
  · rw [if_pos h1]
    refine nodup_saveClass h ?_
    have hnm : cr.student ∉ cls.enrolledStudents := not_mem_of_contains_eq_false h1
    simp [List.nodup_append, hcls, hnm]
  · rw [if_neg h1]
    exact h

theorem nodup_addStudentSide {s : State} {cr : ClassRequest} {stu : Student}
    (h : NodupLists s) (hstu : stu.enrolledClasses.Nodup) :
    NodupLists (addStudentSide s cr stu) := by
  unfold addStudentSide
  by_cases h2 : stu.enrolledClasses.contains cr.class_ = false
  · rw [if_pos h2]
    refine nodup_saveStudent h ?_
    have hnm : cr.class_ ∉ stu.enrolledClasses := not_mem_of_contains_eq_false h2
    simp [List.nodup_append, hstu, hnm]
  · rw [if_neg h2]
    exact h

theorem nodup_addMembership {s : State} {cr : ClassRequest} {cls : Class} {stu : Student}
    (h : NodupLists s) (hcls : cls.enrolledStudents.Nodup)
    (hstu : stu.enrolledClasses.Nodup) :
    NodupLists (addMembership s cr cls stu) :=
  nodup_addStudentSide (nodup_addClassSide h hcls) hstu

theorem nodup_removeClassSide {s : State} {cr : ClassRequest} (h : NodupLists s) :
    NodupLists (removeClassSide s cr) := by
  unfold removeClassSide
  cases hc : findClass s cr.class_ with
  | none => exact h
  | some cls =>
    dsimp only
    by_cases hlen : (cls.enrolledStudents.filter (fun i => !(i == cr.student))).length =
        cls.enrolledStudents.length
    · rw [if_pos hlen]
      exact h
    · rw [if_neg hlen]
      exact nodup_saveClass h ((h.2 cls (findById_mem hc)).filter _)

theorem nodup_removeMembershipChecked {s : State} {cr : ClassRequest} (h : NodupLists s) :
    NodupLists (removeMembershipChecked s cr) := by
  unfold removeMembershipChecked
  cases hs : findStudent s cr.student with
  | none => exact nodup_removeClassSide h
  | some stu =>
    dsimp only
    by_cases hlen : (stu.enrolledClasses.filter (fun i => !(i == cr.class_))).length =
        stu.enrolledClasses.length
    · rw [if_pos hlen]
      exact nodup_removeClassSide h
    · rw [if_neg hlen]
      exact nodup_saveStudent (nodup_removeClassSide h) ((h.1 stu (findById_mem hs)).filter _)

/-- C4: idempotent membership add — approving a membership that already
exists for the same (student, class) pair a second time, whether through
`approveClassRequest` or through `changeClassRequestStatus` into Approved
(e.g. called twice), never introduces a duplicate entry: both operations
preserve duplicate-freeness of every student's `enrolledClasses` and every
class's `enrolledStudents` (each push is guarded by an absence check). -/
theorem no_duplicate_membership :
    (∀ (nf : Bool) (s : State) (rid a t : Nat) (note : Option String), NodupLists s →
      NodupLists (approveClassRequest nf s rid a t note).1) ∧
    (∀ (nf : Bool) (s : State) (rid : Nat) (st : Status) (a t : Nat) (note : Option String),
      NodupLists s → NodupLists (changeClassRequestStatus nf s rid st a t note).1) := by
  constructor
  · intro nf s rid a t note h
    cases hr : findRequest s rid with
    | none => rw [approve_eq_notFound nf a t note hr]; exact h
    | some cr =>
      by_cases hp : cr.status = Status.Pending
      · cases hc : findClass s cr.class_ with
        | none => rw [approve_eq_classMissing nf a t note hr hp hc]; exact h
        | some cls =>
          cases hs : findStudent s cr.student with
          | none =>
            by_cases hlen : cls.enrolledStudents.length = 0
            · by_cases hb : capacityBlocked cls cr.student
              · rw [approve_eq_blocked nf a t note hr hp hc (fun hcon => hcon.1 hlen) hb]
                exact h
              · rw [approve_eq_studentMissing_saved nf a t note hr hp hc hs hlen hb]
                exact nodup_saveRequest h
            · rw [approve_eq_studentMissing_guard nf a t note hr hp hc hs hlen]; exact h
          | some stu =>
            by_cases hb : capacityBlocked cls cr.student
            · rw [approve_eq_blocked nf a t note hr hp hc (by rw [hs]; simp) hb]; exact h
            · rw [approve_eq_ok nf a t note hr hp hc hs hb]
              exact nodup_addMembership (nodup_saveRequest h)
                (h.2 cls (findById_mem hc)) (h.1 stu (findById_mem hs))
      · rw [approve_eq_notPending nf a t note hr hp]; exact h
  · intro nf s rid st a t note h
    cases hr : findRequest s rid with
    | none => rw [changeStatus_eq_notFound nf st a t note hr]; exact h
    | some cr =>
      by_cases h1 : cr.status = Status.Approved ∧ st ≠ Status.Approved
      · rw [changeStatus_eq_remove nf st a t note hr h1]
        exact nodup_saveRequest (nodup_removeMembershipChecked h)
      · by_cases h2 : cr.status ≠ Status.Approved ∧ st = Status.Approved
        · cases hc : findClass s cr.class_ with
          | none => rw [changeStatus_eq_add_missing nf st a t note hr h2 (Or.inl hc)]; exact h
          | some cls =>
            cases hs : findStudent s cr.student with
            | none => rw [changeStatus_eq_add_missing nf st a t note hr h2 (Or.inr hs)]; exact h
            | some stu =>
              by_cases hb : capacityBlocked cls cr.student
              · rw [changeStatus_eq_add_blocked nf st a t note hr h2 hc hs hb]; exact h
              · rw [changeStatus_eq_add_ok nf st a t note hr h2 hc hs hb]
                exact nodup_saveRequest (nodup_addMembership h
                  (h.2 cls (findById_mem hc)) (h.1 stu (findById_mem hs)))
        · have h3 : cr.status = Status.Approved ↔ st = Status.Approved := by tauto
          rw [changeStatus_eq_frame nf st a t note hr h3]
          exact nodup_saveRequest h

def stateC4 : State :=
  { requests := [{ id := 100, student := 1, class_ := 2, reason := "", status := .Pending,
                   adminResponse := none },
                 { id := 101, student := 1, class_ := 2, reason := "", status := .Rejected,
                   adminResponse := none }],
    students := [{ id := 1, userId := 10, firstName := "A", lastName := "B",
                   status := "Approved", enrolledClasses := [2] }],
    classes := [{ id := 2, capacity := 5, isActive := true, type := "Normal",
                  grade := "10", category := "Theory", enrolledStudents := [1] }] }

/-- Witness for C4: the membership for (student 1, class 2) already exists;
re-approving request 100 and changing request 101 to Approved both leave the
lists duplicate-free (in fact untouched). -/
theorem no_duplicate_membership_witness :
    NodupLists stateC4 ∧
    NodupLists (approveClassRequest false stateC4 100 9 0 none).1 ∧
    NodupLists (changeClassRequestStatus false stateC4 101 Status.Approved 9 1 none).1 :=
  ⟨by decide,
   no_duplicate_membership.1 false stateC4 100 9 0 none (by decide),
   no_duplicate_membership.2 false stateC4 101 Status.Approved 9 1 none (by decide)⟩

/-- C8: student-initiated deletion fails `Forbidden` when the request is not
owned by the requester and `InvalidState` when its status is not Pending,
and on success removes the request with no change to either membership
list; admin deletion of an Approved request removes both the request and
the bidirectional membership (the student is filtered out of the class's
`enrolledStudents` and the class out of the student's `enrolledClasses`). -/
theorem delete_semantics :
    (∀ (s : State) (uid rid : Nat) (stu : Student) (cr : ClassRequest),
      findStudentByUser s uid = some stu → findRequest s rid = some cr →
      cr.student ≠ stu.id →
      deleteClassRequest s uid rid =
        (s, .err .Forbidden "You can only delete your own class requests")) ∧
    (∀ (s : State) (uid rid : Nat) (stu : Student) (cr : ClassRequest),
      findStudentByUser s uid = some stu → findRequest s rid = some cr →
      cr.student = stu.id → cr.status ≠ Status.Pending →
      deleteClassRequest s uid rid =
        (s, .err .InvalidState "You can only delete pending class requests")) ∧
    (∀ (s : State) (uid rid : Nat) (stu : Student) (cr : ClassRequest),
      findStudentByUser s uid = some stu → findRequest s rid = some cr →
      cr.student = stu.id → cr.status = Status.Pending →
      deleteClassRequest s uid rid =
        ({ s with requests := s.requests.filter (fun r => !(r.id == rid)) }, .ok ())) ∧
    (∀ (nf : Bool) (s : State) (rid : Nat) (cr : ClassRequest) (cls : Class) (stu : Student),
      findRequest s rid = some cr → cr.status = Status.Approved →
      findClass s cr.class_ = some cls → findStudent s cr.student = some stu →
      adminDeleteClassRequest nf s rid =
        (let sB := saveStudent
            (saveClass s { cls with
                           enrolledStudents :=
                             cls.enrolledStudents.filter (fun i => !(i == cr.student)) })
            { stu with
              enrolledClasses := stu.enrolledClasses.filter (fun i => !(i == cr.class_)) }
         ({ sB with requests := sB.requests.filter (fun r => !(r.id == rid)) },
          .ok { studentName := stu.firstName ++ " " ++ stu.lastName,
                className := cls.grade ++ " - " ++ cls.category, status := cr.status })) ∧
      pairRemoved (adminDeleteClassRequest nf s rid).1 cr.student cr.class_ = true) := by
  refine ⟨?_, ?_, ?_, ?_⟩
  · intro s uid rid stu cr hstu hr hno
    unfold deleteClassRequest
    rw [hstu]
    dsimp only
    rw [hr]
    dsimp only
    rw [if_pos hno]
  · intro s uid rid stu cr hstu hr hown hnp
    unfold deleteClassRequest
    rw [hstu]
    dsimp only
    rw [hr]
    dsimp only
    rw [if_neg (by simp [hown]), if_pos hnp]
  · intro s uid rid stu cr hstu hr hown hp
    unfold deleteClassRequest
    rw [hstu]
    dsimp only
    rw [hr]
    dsimp only
    rw [if_neg (by simp [hown]), if_neg (by simp [hp])]
  · intro nf s rid cr cls stu hr hst hc hs
    have hcid : cls.id = cr.class_ := findById_id hc
    have hsid : stu.id = cr.student := findById_id hs
    have heq : adminDeleteClassRequest nf s rid =
        (let sB := saveStudent
            (saveClass s { cls with
                           enrolledStudents :=
                             cls.enrolledStudents.filter (fun i => !(i == cr.student)) })
            { stu with
              enrolledClasses := stu.enrolledClasses.filter (fun i => !(i == cr.class_)) }
         ({ sB with requests := sB.requests.filter (fun r => !(r.id == rid)) },
          .ok { studentName := stu.firstName ++ " " ++ stu.lastName,
                className := cls.grade ++ " - " ++ cls.category, status := cr.status })) := by
      unfold adminDeleteClassRequest adminRemoveMembership
      rw [hr]
      dsimp only
      rw [if_pos hst, hc]
      dsimp only
      rw [findStudent_saveClass, hs]
    refine ⟨heq, ?_⟩
    rw [heq]
    dsimp only
    simp only [pairRemoved, findClass_requestsSet, findStudent_requestsSet,
      findClass_saveStudent, findClass_saveClass, findStudent_saveStudent,
      findStudent_saveClass]
    simp [hcid, hsid, hc, hs]

def stateC8 : State :=
  { requests := [{ id := 100, student := 1, class_ := 2, reason := "", status := .Pending,
                   adminResponse := none },
                 { id := 101, student := 3, class_ := 2, reason := "", status := .Rejected,
                   adminResponse := none },
                 { id := 102, student := 3, class_ := 2, reason := "", status := .Approved,
                   adminResponse := none }],
    students := [{ id := 1, userId := 10, firstName := "A", lastName := "B",
                   status := "Approved", enrolledClasses := [] },
                 { id := 3, userId := 11, firstName := "C", lastName := "D",
                   status := "Approved", enrolledClasses := [2] }],
    classes := [{ id := 2, capacity := 5, isActive := true, type := "Normal",
                  grade := "10", category := "Theory", enrolledStudents := [3] }] }

/-- Witness for C8: student 10 may not delete request 101 (Forbidden), may
not delete the non-Pending request 102 as its owner 11 (InvalidState), may
delete the own Pending request 100 with no list change, and an admin delete
of the Approved request 102 erases the membership of (student 3, class 2). -/
theorem delete_semantics_witness :
    deleteClassRequest stateC8 10 101 =
      (stateC8, .err .Forbidden "You can only delete your own class requests") ∧
    deleteClassRequest stateC8 11 102 =
      (stateC8, .err .InvalidState "You can only delete pending class requests") ∧
    (deleteClassRequest stateC8 10 100).1.students = stateC8.students ∧
    (deleteClassRequest stateC8 10 100).1.classes = stateC8.classes ∧
    pairRemoved (adminDeleteClassRequest false stateC8 102).1 3 2 = true := by
  have h1 := delete_semantics.1 stateC8 10 101
    { id := 1, userId := 10, firstName := "A", lastName := "B",
      status := "Approved", enrolledClasses := [] }
    { id := 101, student := 3, class_ := 2, reason := "", status := .Rejected,
      adminResponse := none } (by decide) (by decide) (by decide)
  have h2 := delete_semantics.2.1 stateC8 11 102
    { id := 3, userId := 11, firstName := "C", lastName := "D",
      status := "Approved", enrolledClasses := [2] }
    { id := 102, student := 3, class_ := 2, reason := "", status := .Approved,
      adminResponse := none } (by decide) (by decide) (by decide) (by decide)
  have h3 := delete_semantics.2.2.1 stateC8 10 100
    { id := 1, userId := 10, firstName := "A", lastName := "B",
      status := "Approved", enrolledClasses := [] }
    { id := 100, student := 1, class_ := 2, reason := "", status := .Pending,
      adminResponse := none } (by decide) (by decide) (by decide) (by decide)
  have h4 := (delete_semantics.2.2.2 false stateC8 102
    { id := 102, student := 3, class_ := 2, reason := "", status := .Approved,
      adminResponse := none }
    { id := 2, capacity := 5, isActive := true, type := "Normal",
      grade := "10", category := "Theory", enrolledStudents := [3] }
    { id := 3, userId := 11, firstName := "C", lastName := "D",
      status := "Approved", enrolledClasses := [2] }
    (by decide) (by decide) (by decide) (by decide)).2
  exact ⟨h1, h2, by rw [h3], by rw [h3], h4⟩

/-- C9: `approveAllPendingRequests` fails with `InvalidState` if and only if
the set of Pending requests is empty at call time; an empty pending set is
reported as an error, never as a silent success with zero counts. -/
theorem approveAll_invalidState_iff (nf : Bool) (s : State) (a t : Nat)
    (note : Option String) :
    (approveAllPendingRequests nf s a t note).2.errKind? = some ErrorKind.InvalidState ↔
      s.requests.filter (fun r => r.status == Status.Pending) = [] := by
  unfold approveAllPendingRequests
  by_cases hp : (s.requests.filter (fun r => r.status == Status.Pending)).length = 0
  · rw [if_pos hp]
    simp [Result.errKind?, List.length_eq_zero.mp hp]
  · rw [if_neg hp]
    dsimp only
    simp only [Result.errKind?]
    constructor
    · intro h
      exact absurd h (by simp)
    · intro h
      exact absurd (by simp [h] : (s.requests.filter
        (fun r => r.status == Status.Pending)).length = 0) hp

def stateC7 : State :=
  { requests := [{ id := 100, student := 1, class_ := 2, reason := "", status := .Pending,
                   adminResponse := none }],
    students := [{ id := 1, userId := 10, firstName := "A", lastName := "B",
                   status := "Approved", enrolledClasses := [] }],
    classes := [{ id := 2, capacity := 1, isActive := true, type := "Normal",
                  grade := "10", category := "Theory", enrolledStudents := [] }] }

def stateC7saved : State :=
  { stateC7 with
    requests := [{ id := 100, student := 1, class_ := 2, reason := "",
                   status := .Rejected,
                   adminResponse := some { actionBy := 9, actionDate := 0,
                                           actionNote := "Request rejected" } }] }

/-- C7, failing operation: `rejectClassRequest` does not wrap its
notification dispatch in `try/catch` (source lines 311-322, unlike lines
247-263, 437-455, 541-557 and 668-684), so a notification failure makes the
whole operation answer a server error — even though the rejection has
already been persisted — while the same call with a working notification
sink succeeds.  The other four notifying handlers ignore the dispatch
outcome entirely. -/
theorem reject_notification_failure_not_swallowed :
    rejectClassRequest true stateC7 100 9 0 none =
      (stateC7saved, .err .ServerError "Server error") ∧
    rejectClassRequest false stateC7 100 9 0 none =
      (stateC7saved, .ok { id := 100, student := 1, class_ := 2, reason := "",
                           status := .Rejected,
                           adminResponse := some { actionBy := 9, actionDate := 0,
                                                   actionNote := "Request rejected" } }) := by
  constructor
  · decide
  · decide

/-! ## Frame lemmas for the membership edits -/

@[simp] theorem requests_saveClass (s : State) (c : Class) :
    (saveClass s c).requests = s.requests := rfl

@[simp] theorem requests_saveStudent (s : State) (st : Student) :
    (saveStudent s st).requests = s.requests := rfl

@[simp] theorem requests_saveRequest (s : State) (r : ClassRequest) :
    (saveRequest s r).requests = saveById ClassRequest.id s.requests r := rfl

@[simp] theorem requests_addClassSide (s : State) (cr : ClassRequest) (cls : Class) :
    (addClassSide s cr cls).requests = s.requests := by
  unfold addClassSide
  split <;> rfl

@[simp] theorem requests_addStudentSide (s : State) (cr : ClassRequest) (stu : Student) :
    (addStudentSide s cr stu).requests = s.requests := by
  unfold addStudentSide
  split <;> rfl

@[simp] theorem requests_addMembership (s : State) (cr : ClassRequest) (cls : Class)
    (stu : Student) : (addMembership s cr cls stu).requests = s.requests := by
  unfold addMembership
  rw [requests_addStudentSide, requests_addClassSide]

@[simp] theorem requests_removeClassSide (s : State) (cr : ClassRequest) :
    (removeClassSide s cr).requests = s.requests := by
  unfold removeClassSide
  cases findClass s cr.class_ with
  | none => rfl
  | some cls =>
    dsimp only
    split <;> rfl

@[simp] theorem requests_removeMembershipChecked (s : State) (cr : ClassRequest) :
    (removeMembershipChecked s cr).requests = s.requests := by
  unfold removeMembershipChecked
  cases findStudent s cr.student with
  | none => rw [requests_removeClassSide]
  | some stu =>
    dsimp only
    split
    · rw [requests_removeClassSide]
    · rw [requests_saveStudent, requests_removeClassSide]

@[simp] theorem requests_adminRemoveMembership (s : State) (cr : ClassRequest) :
    (adminRemoveMembership s cr).requests = s.requests := by
  unfold adminRemoveMembership
  cases findClass s cr.class_ with
  | none => rfl
  | some cls =>
    dsimp only
    cases findStudent (saveClass s { cls with
        enrolledStudents := cls.enrolledStudents.filter (fun i => !(i == cr.student)) })
        cr.student <;> rfl

@[simp] theorem findStudent_addClassSide (s : State) (cr : ClassRequest) (cls : Class)
    (i : Nat) : findStudent (addClassSide s cr cls) i = findStudent s i := by
  unfold addClassSide
  split <;> rfl

@[simp] theorem findClass_addStudentSide (s : State) (cr : ClassRequest) (stu : Student)
    (i : Nat) : findClass (addStudentSide s cr stu) i = findClass s i := by
  unfold addStudentSide
  split <;> rfl

@[simp] theorem findStudent_removeClassSide (s : State) (cr : ClassRequest) (i : Nat) :
    findStudent (removeClassSide s cr) i = findStudent s i := by
  unfold removeClassSide
  cases findClass s cr.class_ with
  | none => rfl
  | some cls =>
    dsimp only
    split <;> rfl

@[simp] theorem findRequest_addMembership (s : State) (cr : ClassRequest) (cls : Class)
    (stu : Student) (i : Nat) :
    findRequest (addMembership s cr cls stu) i = findRequest s i := by
  unfold findRequest
  rw [requests_addMembership]

@[simp] theorem findRequest_removeMembershipChecked (s : State) (cr : ClassRequest)
    (i : Nat) : findRequest (removeMembershipChecked s cr) i = findRequest s i := by
  unfold findRequest
  rw [requests_removeMembershipChecked]

@[simp] theorem hasMembership_requestsSet (s : State) (l : List ClassRequest) (a b : Nat) :
    hasMembership { s with requests := l } a b = hasMembership s a b := rfl

@[simp] theorem hasMembership_saveRequest (s : State) (r : ClassRequest) (a b : Nat) :
    hasMembership (saveRequest s r) a b = hasMembership s a b := rfl

/-! ## Membership lemmas -/

theorem contains_true_iff (l : List Nat) (a : Nat) : l.contains a = true ↔ a ∈ l := by
  simp

theorem contains_append_one (l : List Nat) (x a : Nat) (h : l.contains a = true) :
    (l ++ [x]).contains a = true := by
  simp at h ⊢
  exact Or.inl h

theorem contains_append_self (l : List Nat) (x : Nat) : (l ++ [x]).contains x = true := by
  simp

theorem contains_filter_keep {l : List Nat} {a x : Nat} (hne : a ≠ x)
    (h : l.contains a = true) : (l.filter (fun i => !(i == x))).contains a = true := by
  simp at h ⊢
  exact ⟨h, hne⟩

theorem filter_eq_of_length_eq {l : List Nat} {p : Nat → Bool}
    (h : (l.filter p).length = l.length) : l.filter p = l :=
  (List.filter_sublist l).eq_of_length h

theorem contains_eq_false_of_filter_ne_eq {l : List Nat} {x : Nat}
    (h : l.filter (fun i => !(i == x)) = l) : l.contains x = false := by
  cases hcb : l.contains x with
  | false => rfl
  | true =>
    exfalso
    have hx : x ∈ l := (contains_true_iff l x).mp hcb
    have := List.of_mem_filter (p := fun i => !(i == x)) (h ▸ hx)
    simp at this

theorem contains_true_of_ne_false {b : Bool} (h : ¬ b = false) : b = true := by
  cases b with
  | false => exact absurd rfl h
  | true => rfl

theorem andE {a b : Bool} (h : (a && b) = true) : a = true ∧ b = true := by
  simpa using h

theorem andI {a b : Bool} (ha : a = true) (hb : b = true) : (a && b) = true := by
  simp [ha, hb]

theorem hasMembership_addClassSide_mono {s : State} {cr : ClassRequest} {cls : Class}
    {a b : Nat} (hc : findClass s cr.class_ = some cls)
    (h : hasMembership s a b = true) :
    hasMembership (addClassSide s cr cls) a b = true := by
  have hcid : cls.id = cr.class_ := findById_id hc
  unfold addClassSide
  by_cases h1 : cls.enrolledStudents.contains cr.student = false
  · rw [if_pos h1]
    unfold hasMembership at h ⊢
    rw [findStudent_saveClass, findClass_saveClass]
    rcases andE h with ⟨hcl, hst⟩
    refine andI ?_ hst
    dsimp only
    by_cases hb : b = cls.id
    · rw [if_pos hb]
      have hfb : findClass s b = some cls := by
        rw [hb, hcid]
        exact hc
      rw [hfb] at hcl ⊢
      have hcl2 : cls.enrolledStudents.contains a = true := hcl
      show ((cls.enrolledStudents ++ [cr.student]).contains a) = true
      exact contains_append_one _ _ _ hcl2
    · rw [if_neg hb]
      exact hcl
  · rw [if_neg h1]
    exact h

theorem hasMembership_addStudentSide_mono {s : State} {cr : ClassRequest} {stu : Student}
    {a b : Nat} (hs : findStudent s cr.student = some stu)
    (h : hasMembership s a b = true) :
    hasMembership (addStudentSide s cr stu) a b = true := by
  have hsid : stu.id = cr.student := findById_id hs
  unfold addStudentSide
  by_cases h2 : stu.enrolledClasses.contains cr.class_ = false
  · rw [if_pos h2]
    unfold hasMembership at h ⊢
    rw [findClass_saveStudent, findStudent_saveStudent]
    rcases andE h with ⟨hcl, hst⟩
    refine andI hcl ?_
    dsimp only
    by_cases ha : a = stu.id
    · rw [if_pos ha]
      have hfa : findStudent s a = some stu := by
        rw [ha, hsid]
        exact hs
      rw [hfa] at hst ⊢
      have hst2 : stu.enrolledClasses.contains b = true := hst
      show ((stu.enrolledClasses ++ [cr.class_]).contains b) = true
      exact contains_append_one _ _ _ hst2
    · rw [if_neg ha]
      exact hst
  · rw [if_neg h2]
    exact h

theorem hasMembership_addMembership_mono {s : State} {cr : ClassRequest} {cls : Class}
    {stu : Student} {a b : Nat} (hc : findClass s cr.class_ = some cls)
    (hs : findStudent s cr.student = some stu) (h : hasMembership s a b = true) :
    hasMembership (addMembership s cr cls stu) a b = true :=
  hasMembership_addStudentSide_mono
    (by rw [findStudent_addClassSide]; exact hs)
    (hasMembership_addClassSide_mono hc h)

theorem addClassSide_contains {s : State} {cr : ClassRequest} {cls : Class}
    (hc : findClass s cr.class_ = some cls) :
    Option.any (fun c => c.enrolledStudents.contains cr.student)
      (findClass (addClassSide s cr cls) cr.class_) = true := by
  have hcid : cls.id = cr.class_ := findById_id hc
  unfold addClassSide
  by_cases h1 : cls.enrolledStudents.contains cr.student = false
  · rw [if_pos h1, findClass_saveClass]
    dsimp only
    rw [if_pos hcid.symm, hc]
    show ((cls.enrolledStudents ++ [cr.student]).contains cr.student) = true
    exact contains_append_self _ _
  · rw [if_neg h1, hc]
    show cls.enrolledStudents.contains cr.student = true
    exact contains_true_of_ne_false h1

theorem addStudentSide_contains {s : State} {cr : ClassRequest} {stu : Student}
    (hs : findStudent s cr.student = some stu) :
    Option.any (fun st => st.enrolledClasses.contains cr.class_)
      (findStudent (addStudentSide s cr stu) cr.student) = true := by
  have hsid : stu.id = cr.student := findById_id hs
  unfold addStudentSide
  by_cases h2 : stu.enrolledClasses.contains cr.class_ = false
  · rw [if_pos h2, findStudent_saveStudent]
    dsimp only
    rw [if_pos hsid.symm, hs]
    show ((stu.enrolledClasses ++ [cr.class_]).contains cr.class_) = true
    exact contains_append_self _ _
  · rw [if_neg h2, hs]
    show stu.enrolledClasses.contains cr.class_ = true
    exact contains_true_of_ne_false h2

theorem hasMembership_addMembership_self {s : State} {cr : ClassRequest} {cls : Class}
    {stu : Student} (hc : findClass s cr.class_ = some cls)
    (hs : findStudent s cr.student = some stu) :
    hasMembership (addMembership s cr cls stu) cr.student cr.class_ = true := by
  unfold addMembership hasMembership
  refine andI ?_ ?_
  · rw [findClass_addStudentSide]
    exact addClassSide_contains hc
  · exact addStudentSide_contains (by rw [findStudent_addClassSide]; exact hs)

theorem hasMembership_removeClassSide_other {s : State} {cr : ClassRequest} {a b : Nat}
    (hne : ¬ (a = cr.student ∧ b = cr.class_)) (h : hasMembership s a b = true) :
    hasMembership (removeClassSide s cr) a b = true := by
  unfold removeClassSide
  cases hc : findClass s cr.class_ with
  | none => exact h
  | some cls =>
    have hcid : cls.id = cr.class_ := findById_id hc
    dsimp only
    split
    · exact h
    · unfold hasMembership at h ⊢
      rw [findStudent_saveClass, findClass_saveClass]
      rcases andE h with ⟨hcl, hst⟩
      refine andI ?_ hst
      dsimp only
      by_cases hb : b = cls.id
      · rw [if_pos hb]
        have hbc : b = cr.class_ := hb.trans hcid
        have hane : a ≠ cr.student := by
          intro ha
          exact hne ⟨ha, hbc⟩
        have hfb : findClass s b = some cls := by
          rw [hbc]
          exact hc
        rw [hfb] at hcl ⊢
        have hcl2 : cls.enrolledStudents.contains a = true := hcl
        show ((cls.enrolledStudents.filter (fun i => !(i == cr.student))).contains a) = true
        exact contains_filter_keep hane hcl2
      · rw [if_neg hb]
        exact hcl

theorem hasMembership_removeMembershipChecked_other {s : State} {cr : ClassRequest}
    {a b : Nat} (hne : ¬ (a = cr.student ∧ b = cr.class_))
    (h : hasMembership s a b = true) :
    hasMembership (removeMembershipChecked s cr) a b = true := by
  have hA : hasMembership (removeClassSide s cr) a b = true :=
    hasMembership_removeClassSide_other hne h
  unfold removeMembershipChecked
  cases hst : findStudent s cr.student with
  | none => exact hA
  | some stu =>
    have hsid : stu.id = cr.student := findById_id hst
    dsimp only
    split
    · exact hA
    · unfold hasMembership at hA ⊢
      rw [findClass_saveStudent, findStudent_saveStudent]
      rcases andE hA with ⟨hcl, hstu⟩
      refine andI hcl ?_
      dsimp only
      by_cases ha : a = stu.id
      · rw [if_pos ha]
        have hac : a = cr.student := ha.trans hsid
        have hbne : b ≠ cr.class_ := by
          intro hb
          exact hne ⟨hac, hb⟩
        have hfa : findStudent (removeClassSide s cr) a = some stu := by
          rw [findStudent_removeClassSide, hac]
          exact hst
        rw [hfa] at hstu ⊢
        have hstu2 : stu.enrolledClasses.contains b = true := hstu
        show ((stu.enrolledClasses.filter (fun i => !(i == cr.class_))).contains b) = true
        exact contains_filter_keep hbne hstu2
      · rw [if_neg ha]
        exact hstu

theorem removeClassSide_pair {s : State} {cr : ClassRequest} {cls : Class}
    (hc : findClass s cr.class_ = some cls) :
    Option.all (fun c => !(c.enrolledStudents.contains cr.student))
      (findClass (removeClassSide s cr) cr.class_) = true := by
  have hcid : cls.id = cr.class_ := findById_id hc
  unfold removeClassSide
  rw [hc]
  dsimp only
  split
  case isTrue hlen =>
    rw [hc]
    show (!(cls.enrolledStudents.contains cr.student)) = true
    rw [contains_eq_false_of_filter_ne_eq (filter_eq_of_length_eq hlen)]
    rfl
  case isFalse hlen =>
    rw [findClass_saveClass]
    dsimp only
    rw [if_pos hcid.symm, hc]
    show (!((cls.enrolledStudents.filter (fun i => !(i == cr.student))).contains cr.student)) = true
    rw [contains_filter_ne_self]
    rfl

theorem pairRemoved_removeMembershipChecked {s : State} {cr : ClassRequest} {cls : Class}
    {stu : Student} (hc : findClass s cr.class_ = some cls)
    (hs : findStudent s cr.student = some stu) :
    pairRemoved (removeMembershipChecked s cr) cr.student cr.class_ = true := by
  have hsid : stu.id = cr.student := findById_id hs
  unfold removeMembershipChecked pairRemoved
  rw [hs]
  dsimp only
  split
  case isTrue hlen =>
    refine andI (removeClassSide_pair hc) ?_
    rw [findStudent_removeClassSide, hs]
    show (!(stu.enrolledClasses.contains cr.class_)) = true
    rw [contains_eq_false_of_filter_ne_eq (filter_eq_of_length_eq hlen)]
    rfl
  case isFalse hlen =>
    refine andI ?_ ?_
    · rw [findClass_saveStudent]
      exact removeClassSide_pair hc
    · rw [findStudent_saveStudent]
      dsimp only
      rw [if_pos hsid.symm, findStudent_removeClassSide, hs]
      show (!((stu.enrolledClasses.filter (fun i => !(i == cr.class_))).contains cr.class_)) = true
      rw [contains_filter_ne_self]
      rfl

/-! ## Relationship invariant preservation -/

theorem pairUnique_inj {s : State} (h : PairUnique s) {r1 r2 : ClassRequest}
    (h1 : r1 ∈ s.requests) (h2 : r2 ∈ s.requests)
    (hstu : r1.student = r2.student) (hcls : r1.class_ = r2.class_) : r1 = r2 := by
  refine List.inj_on_of_nodup_map h h1 h2 ?_
  simp [hstu, hcls]

theorem hasMembership_adminRemoveMembership_other {s : State} {cr : ClassRequest}
    {a b : Nat} (hne : ¬ (a = cr.student ∧ b = cr.class_))
    (h : hasMembership s a b = true) :
    hasMembership (adminRemoveMembership s cr) a b = true := by
  unfold adminRemoveMembership
  cases hc : findClass s cr.class_ with
  | none => exact h
  | some cls =>
    have hcid : cls.id = cr.class_ := findById_id hc
    dsimp only
    have hA : hasMembership (saveClass s { cls with
        enrolledStudents := cls.enrolledStudents.filter (fun i => !(i == cr.student)) })
        a b = true := by
      unfold hasMembership at h ⊢
      rw [findStudent_saveClass, findClass_saveClass]
      rcases andE h with ⟨hcl, hst⟩
      refine andI ?_ hst
      dsimp only
      by_cases hb : b = cls.id
      · rw [if_pos hb]
        have hbc : b = cr.class_ := hb.trans hcid
        have hane : a ≠ cr.student := by
          intro ha
          exact hne ⟨ha, hbc⟩
        have hfb : findClass s b = some cls := by
          rw [hbc]
          exact hc
        rw [hfb] at hcl ⊢
        have hcl2 : cls.enrolledStudents.contains a = true := hcl
        show ((cls.enrolledStudents.filter (fun i => !(i == cr.student))).contains a) = true
        exact contains_filter_keep hane hcl2
      · rw [if_neg hb]
        exact hcl
    cases hstu : findStudent (saveClass s { cls with
        enrolledStudents := cls.enrolledStudents.filter (fun i => !(i == cr.student)) })
        cr.student with
    | none => exact hA
    | some stu =>
      have hsid : stu.id = cr.student := findById_id hstu
      dsimp only
      unfold hasMembership at hA ⊢
      rw [findClass_saveStudent, findStudent_saveStudent]
      rcases andE hA with ⟨hcl, hstA⟩
      refine andI hcl ?_
      dsimp only
      by_cases ha : a = stu.id
      · rw [if_pos ha]
        have hac : a = cr.student := ha.trans hsid
        have hbne : b ≠ cr.class_ := by
          intro hb
          exact hne ⟨hac, hb⟩
        have hfa : findStudent (saveClass s { cls with
            enrolledStudents := cls.enrolledStudents.filter (fun i => !(i == cr.student)) })
            a = some stu := by
          rw [hac]
          exact hstu
        rw [hfa] at hstA ⊢
        have hstA2 : stu.enrolledClasses.contains b = true := hstA
        show ((stu.enrolledClasses.filter (fun i => !(i == cr.class_))).contains b) = true
        exact contains_filter_keep hbne hstA2
      · rw [if_neg ha]
        exact hstA

theorem relInv_createClassRequest (s : State) (u c : Nat) (reason : String) (i : Nat)
    (h : RelInv s) : RelInv (createClassRequest s u c reason i).1 := by
  unfold createClassRequest
  cases hfs : findStudentByUser s u with
  | none => exact h
  | some student =>
    dsimp only
    by_cases h1 : student.status ≠ "Approved"
    · rw [if_pos h1]
      exact h
    · rw [if_neg h1]
      cases hfc : findClass s c with
      | none => exact h
      | some classItem =>
        dsimp only
        by_cases h2 : ¬ (classItem.isActive = true ∧ classItem.type = "Normal")
        · rw [if_pos h2]
          exact h
        · rw [if_neg h2]
          by_cases h3 : student.enrolledClasses.contains c = true
          · rw [if_pos h3]
            exact h
          · rw [if_neg h3]
            by_cases h4 : (s.requests.find? (fun r =>
                r.student == student.id && r.class_ == c && r.status == Status.Pending)).isSome
            · rw [if_pos h4]
              exact h
            · rw [if_neg h4]
              intro r hr hst
              rw [hasMembership_requestsSet]
              rcases List.mem_append.mp hr with hold | hnew
              · exact h r hold hst
              · have hre : r = { id := i, student := student.id, class_ := c,
                                 reason := reason, status := .Pending,
                                 adminResponse := none } := by
                  simpa using hnew
                rw [hre] at hst
                simp at hst

theorem relInv_approveClassRequest (nf : Bool) (s : State) (rid a t : Nat)
    (note : Option String) (hwf : WfRefs s) (h : RelInv s) :
    RelInv (approveClassRequest nf s rid a t note).1 := by
  cases hr : findRequest s rid with
  | none => rw [approve_eq_notFound nf a t note hr]; exact h
  | some cr =>
    have hdocs := hwf cr (findById_mem hr)
    by_cases hpd : cr.status = Status.Pending
    · cases hc : findClass s cr.class_ with
      | none => rw [hc] at hdocs; simp at hdocs
      | some cls =>
        cases hs : findStudent s cr.student with
        | none => rw [hs] at hdocs; simp at hdocs
        | some stu =>
          by_cases hb : capacityBlocked cls cr.student
          · rw [approve_eq_blocked nf a t note hr hpd hc (by rw [hs]; simp) hb]; exact h
          · rw [approve_eq_ok nf a t note hr hpd hc hs hb]
            have hc' : findClass (saveRequest s (approvedDoc cr a t note)) cr.class_ =
                some cls := by rw [findClass_saveRequest]; exact hc
            have hs' : findStudent (saveRequest s (approvedDoc cr a t note)) cr.student =
                some stu := by rw [findStudent_saveRequest]; exact hs
            intro r hrm hst
            have hrm' : r ∈ saveById ClassRequest.id s.requests (approvedDoc cr a t note) := by
              rw [← requests_saveRequest, ← requests_addMembership
                (saveRequest s (approvedDoc cr a t note)) cr cls stu]
              exact hrm
            rcases mem_saveById hrm' with rfl | ⟨hold, hne⟩
            · exact hasMembership_addMembership_self hc' hs'
            · have hm : hasMembership (saveRequest s (approvedDoc cr a t note))
                  r.student r.class_ = true := h r hold hst
              exact hasMembership_addMembership_mono hc' hs' hm
    · rw [approve_eq_notPending nf a t note hr hpd]
      exact h

theorem relInv_rejectClassRequest (nf : Bool) (s : State) (rid a t : Nat)
    (note : Option String) (h : RelInv s) :
    RelInv (rejectClassRequest nf s rid a t note).1 := by
  unfold rejectClassRequest
  cases hr : findRequest s rid with
  | none => exact h
  | some cr =>
    dsimp only
    by_cases hpd : cr.status ≠ Status.Pending
    · rw [if_pos hpd]
      exact h
    · rw [if_neg hpd]
      have key : RelInv (saveRequest s { cr with
          status := Status.Rejected,
          adminResponse := some { actionBy := a, actionDate := t,
                                  actionNote := note.getD "Request rejected" } }) := by
        intro r hrm hst
        rw [hasMembership_saveRequest]
        rw [requests_saveRequest] at hrm
        rcases mem_saveById hrm with rfl | ⟨hold, hne⟩
        · simp at hst
        · exact h r hold hst
      cases nf with
      | false => exact key
      | true => exact key

theorem relInv_changeClassRequestStatus (nf : Bool) (s : State) (rid : Nat) (st : Status)
    (a t : Nat) (note : Option String) (hpu : PairUnique s) (h : RelInv s) :
    RelInv (changeClassRequestStatus nf s rid st a t note).1 := by
  cases hr : findRequest s rid with
  | none => rw [changeStatus_eq_notFound nf st a t note hr]; exact h
  | some cr =>
    have hcrmem : cr ∈ s.requests := findById_mem hr
    by_cases h1 : cr.status = Status.Approved ∧ st ≠ Status.Approved
    · rw [changeStatus_eq_remove nf st a t note hr h1]
      intro r hrm hst
      rw [hasMembership_saveRequest]
      rw [requests_saveRequest, requests_removeMembershipChecked] at hrm
      rcases mem_saveById hrm with rfl | ⟨hold, hne⟩
      · exact absurd hst h1.2
      · have hm : hasMembership s r.student r.class_ = true := h r hold hst
        refine hasMembership_removeMembershipChecked_other ?_ hm
        intro hpair
        have hreq : r = cr := pairUnique_inj hpu hold hcrmem hpair.1 hpair.2
        exact hne (by rw [hreq]; rfl)
    · by_cases h2 : cr.status ≠ Status.Approved ∧ st = Status.Approved
      · cases hc : findClass s cr.class_ with
        | none => rw [changeStatus_eq_add_missing nf st a t note hr h2 (Or.inl hc)]; exact h
        | some cls =>
          cases hs : findStudent s cr.student with
          | none => rw [changeStatus_eq_add_missing nf st a t note hr h2 (Or.inr hs)]; exact h
          | some stu =>
            by_cases hb : capacityBlocked cls cr.student
            · rw [changeStatus_eq_add_blocked nf st a t note hr h2 hc hs hb]; exact h
            · rw [changeStatus_eq_add_ok nf st a t note hr h2 hc hs hb]
              intro r hrm hst
              rw [hasMembership_saveRequest]
              rw [requests_saveRequest, requests_addMembership] at hrm
              rcases mem_saveById hrm with rfl | ⟨hold, hne⟩
              · exact hasMembership_addMembership_self hc hs
              · exact hasMembership_addMembership_mono hc hs (h r hold hst)
      · have h3 : cr.status = Status.Approved ↔ st = Status.Approved := by tauto
        rw [changeStatus_eq_frame nf st a t note hr h3]
        intro r hrm hst
        rw [hasMembership_saveRequest]
        rw [requests_saveRequest] at hrm
        rcases mem_saveById hrm with rfl | ⟨hold, hne⟩
        · have hstA : cr.status = Status.Approved := h3.mpr hst
          exact h cr hcrmem hstA
        · exact h r hold hst

theorem relInv_approveAllStep (a t : Nat) (note : Option String) (s : State)
    (ap f : Nat) (l : List FailedRequest) (cr : ClassRequest) (h : RelInv s) :
    RelInv (approveAllStep a t note (s, ap, f, l) cr).1 := by
  unfold approveAllStep
  dsimp only
  cases hc : findClass s cr.class_ with
  | none => cases hs : findStudent s cr.student <;> exact h
  | some cls =>
    cases hs : findStudent s cr.student with
    | none => exact h
    | some stu =>
      dsimp only
      by_cases hb : capacityBlocked cls cr.student
      · rw [if_pos hb]
        exact h
      · rw [if_neg hb]
        intro r hrm hst
        rw [hasMembership_saveRequest]
        rw [requests_saveRequest, requests_addMembership] at hrm
        rcases mem_saveById hrm with rfl | ⟨hold, hne⟩
        · exact hasMembership_addMembership_self hc hs
        · exact hasMembership_addMembership_mono hc hs (h r hold hst)

theorem relInv_approveAllFold (a t : Nat) (note : Option String) :
    ∀ (todo : List ClassRequest) (acc : State × Nat × Nat × List FailedRequest),
      RelInv acc.1 → RelInv ((todo.foldl (approveAllStep a t note) acc)).1 := by
  intro todo
  induction todo with
  | nil => intro acc h; exact h
  | cons cr rest ih =>
    intro acc h
    rw [List.foldl_cons]
    obtain ⟨s, ap, f, l⟩ := acc
    exact ih _ (relInv_approveAllStep a t note s ap f l cr h)

theorem relInv_approveAllPendingRequests (nf : Bool) (s : State) (a t : Nat)
    (note : Option String) (h : RelInv s) :
    RelInv (approveAllPendingRequests nf s a t note).1 := by
  unfold approveAllPendingRequests
  by_cases hp : (s.requests.filter (fun r => r.status == Status.Pending)).length = 0
  · rw [if_pos hp]
    exact h
  · rw [if_neg hp]
    exact relInv_approveAllFold a t note _ (s, 0, 0, []) h

theorem relInv_deleteClassRequest (s : State) (uid rid : Nat) (h : RelInv s) :
    RelInv (deleteClassRequest s uid rid).1 := by
  unfold deleteClassRequest
  cases hfs : findStudentByUser s uid with
  | none => exact h
  | some student =>
    dsimp only
    cases hr : findRequest s rid with
    | none => exact h
    | some cr =>
      dsimp only
      by_cases h1 : cr.student ≠ student.id
      · rw [if_pos h1]
        exact h
      · rw [if_neg h1]
        by_cases h2 : cr.status ≠ Status.Pending
        · rw [if_pos h2]
          exact h
        · rw [if_neg h2]
          intro r hrm hst
          rw [hasMembership_requestsSet]
          exact h r (List.mem_of_mem_filter hrm) hst

theorem relInv_adminDeleteClassRequest (nf : Bool) (s : State) (rid : Nat)
    (hpu : PairUnique s) (h : RelInv s) :
    RelInv (adminDeleteClassRequest nf s rid).1 := by
  unfold adminDeleteClassRequest
  cases hr : findRequest s rid with
  | none => exact h
  | some cr =>
    have hcrmem : cr ∈ s.requests := findById_mem hr
    have hcrid : cr.id = rid := findById_id hr
    dsimp only
    have hreqs : (if cr.status = Status.Approved then adminRemoveMembership s cr
        else s).requests = s.requests := by
      by_cases hA : cr.status = Status.Approved
      · rw [if_pos hA, requests_adminRemoveMembership]
      · rw [if_neg hA]
    have key : RelInv { (if cr.status = Status.Approved then adminRemoveMembership s cr
        else s) with
        requests := s.requests.filter (fun r => !(r.id == rid)) } := by
      intro r hrm hst
      rw [hasMembership_requestsSet]
      have hrm2 : r ∈ s.requests.filter (fun r => !(r.id == rid)) := hrm
      have hmf := List.mem_filter.mp hrm2
      have hold : r ∈ s.requests := hmf.1
      have hne : r.id ≠ rid := by simpa using hmf.2
      have hm : hasMembership s r.student r.class_ = true := h r hold hst
      by_cases hA : cr.status = Status.Approved
      · rw [if_pos hA]
        refine hasMembership_adminRemoveMembership_other ?_ hm
        intro hpair
        have hreq : r = cr := pairUnique_inj hpu hold hcrmem hpair.1 hpair.2
        exact hne (by rw [hreq, hcrid])
      · rw [if_neg hA]
        exact hm
    cases findStudent s cr.student <;> cases findClass s cr.class_ <;>
      · dsimp only
        rw [hreqs]
        exact key


def stateC2 : State :=
  { requests := [],
    students := [{ id := 1, userId := 10, firstName := "A", lastName := "B",
                   status := "Approved", enrolledClasses := [] }],
    classes := [{ id := 2, capacity := 1, isActive := true, type := "Normal",
                  grade := "10", category := "Theory", enrolledStudents := [] }] }

/-- Coordinator trace reaching two requests for the same (student, class)
pair via create after a rejection, then breaking the relationship invariant
by moving the stale request out of Approved. -/
def opsC2 : List Op :=
  [.createReq 10 2 "r" 100,
   .approveReq false 100 9 0 none,
   .changeStatus false 100 Status.Rejected 9 1 none,
   .createReq 10 2 "r2" 101,
   .approveReq false 101 9 2 none,
   .changeStatus false 100 Status.Approved 9 3 none,
   .changeStatus false 100 Status.Rejected 9 4 none]

/-- Counterexample to C2 as stated: starting from a well-formed store in
which the relationship invariant holds, a sequence of coordinator
operations (create, approve, changeStatus only) reaches a state where
request 101 is Approved but its bidirectional membership does not exist —
the final changeStatus away from Approved on the second, stale request 100
for the same (student, class) pair stripped the membership request 101
still claims. -/
theorem rel_invariant_counterexample :
    RelInv stateC2 ∧ ¬ RelInv (applyOps stateC2 opsC2) := by
  constructor
  · decide
  · decide

/-- C2 (amended): restricted to referentially intact stores (every
request's class and student documents present) holding at most one request
per (student, class) pair, the relationship invariant is preserved: after
every single coordinator operation applied to such a store in which every
Approved request has its bidirectional membership, every Approved request
again has its bidirectional membership; and whenever
`changeClassRequestStatus` moves a request out of Approved (its class and
student documents being present), the transition removes that pair's
membership from both lists.  Both restrictions are forced by the code: two
requests for one pair are reachable and break the invariant (see the
counterexample), and on a store with a dangling student reference
`approveClassRequest` persists the request as Approved and then fails
before the membership add (source lines 221 and 230). -/
theorem rel_invariant_amended :
    (∀ (s : State) (op : Op), WfRefs s → PairUnique s → RelInv s → RelInv (applyOp s op)) ∧
    (∀ (nf : Bool) (s : State) (rid : Nat) (st : Status) (a t : Nat) (note : Option String)
        (cr : ClassRequest) (cls : Class) (stu : Student),
      findRequest s rid = some cr → cr.status = Status.Approved → st ≠ Status.Approved →
      findClass s cr.class_ = some cls → findStudent s cr.student = some stu →
      pairRemoved (changeClassRequestStatus nf s rid st a t note).1
        cr.student cr.class_ = true) := by
  constructor
  · intro s op hwf hpu h
    cases op with
    | createReq u c reason i => exact relInv_createClassRequest s u c reason i h
    | approveReq nf rid a t note => exact relInv_approveClassRequest nf s rid a t note hwf h
    | rejectReq nf rid a t note => exact relInv_rejectClassRequest nf s rid a t note h
    | changeStatus nf rid st a t note =>
      exact relInv_changeClassRequestStatus nf s rid st a t note hpu h
    | approveAll nf a t note => exact relInv_approveAllPendingRequests nf s a t note h
    | studentDelete u rid => exact relInv_deleteClassRequest s u rid h
    | adminDelete nf rid => exact relInv_adminDeleteClassRequest nf s rid hpu h
  · intro nf s rid st a t note cr cls stu hr hA hst hc hs
    rw [changeStatus_eq_remove nf st a t note hr ⟨hA, hst⟩]
    exact pairRemoved_removeMembershipChecked hc hs

def stateC2w : State :=
  { requests := [{ id := 100, student := 1, class_ := 2, reason := "", status := .Approved,
                   adminResponse := none }],
    students := [{ id := 1, userId := 10, firstName := "A", lastName := "B",
                   status := "Approved", enrolledClasses := [2] }],
    classes := [{ id := 2, capacity := 1, isActive := true, type := "Normal",
                  grade := "10", category := "Theory", enrolledStudents := [1] }] }

/-- Witness for the amended C2: a referentially intact, pair-unique store
with one Approved, membership-consistent request; moving it to Rejected
keeps the invariant and removes the membership from both lists. -/
theorem rel_invariant_amended_witness :
    WfRefs stateC2w ∧ PairUnique stateC2w ∧ RelInv stateC2w ∧
    RelInv (applyOp stateC2w (Op.changeStatus false 100 Status.Rejected 9 0 none)) ∧
    pairRemoved (changeClassRequestStatus false stateC2w 100 Status.Rejected 9 0 none).1
      1 2 = true :=
  ⟨by decide, by decide, by decide,
   rel_invariant_amended.1 stateC2w (Op.changeStatus false 100 Status.Rejected 9 0 none)
     (by decide) (by decide) (by decide),
   rel_invariant_amended.2 false stateC2w 100 Status.Rejected 9 0 none
     { id := 100, student := 1, class_ := 2, reason := "", status := .Approved,
       adminResponse := none }
     { id := 2, capacity := 1, isActive := true, type := "Normal",
       grade := "10", category := "Theory", enrolledStudents := [1] }
     { id := 1, userId := 10, firstName := "A", lastName := "B",
       status := "Approved", enrolledClasses := [2] }
     (by decide) (by decide) (by decide) (by decide) (by decide)⟩

/-! ## Bulk approval accounting -/

theorem findById_saveById_isSome (getId : α → Nat) (a : α) (i : Nat) (l : List α) :
    (findById getId (saveById getId l a) i).isSome = (findById getId l i).isSome := by
  rw [findById_saveById]
  by_cases h : i = getId a
  · rw [if_pos h]
    cases findById getId l i <;> rfl
  · rw [if_neg h]

theorem findClass_isSome_saveClass (s : State) (c : Class) (i : Nat) :
    (findClass (saveClass s c) i).isSome = (findClass s i).isSome :=
  findById_saveById_isSome Class.id c i s.classes

theorem findStudent_isSome_saveStudent (s : State) (st : Student) (i : Nat) :
    (findStudent (saveStudent s st) i).isSome = (findStudent s i).isSome :=
  findById_saveById_isSome Student.id st i s.students

theorem lookups_isSome_addMembership (s : State) (cr : ClassRequest) (cls : Class)
    (stu : Student) (i : Nat) :
    (findClass (addMembership s cr cls stu) i).isSome = (findClass s i).isSome ∧
    (findStudent (addMembership s cr cls stu) i).isSome = (findStudent s i).isSome := by
  constructor
  · unfold addMembership
    rw [findClass_addStudentSide]
    unfold addClassSide
    by_cases h1 : cls.enrolledStudents.contains cr.student = false
    · rw [if_pos h1, findClass_isSome_saveClass]
    · rw [if_neg h1]
  · unfold addMembership addStudentSide
    by_cases h2 : stu.enrolledClasses.contains cr.class_ = false
    · rw [if_pos h2, findStudent_isSome_saveStudent, findStudent_addClassSide]
    · rw [if_neg h2, findStudent_addClassSide]

/-- Document written for each request approved by the bulk loop. -/
def bulkApprovedDoc (cr : ClassRequest) (actorId now : Nat) (note : Option String) :
    ClassRequest :=
  { cr with
    status := Status.Approved,
    adminResponse := some { actionBy := actorId, actionDate := now,
                            actionNote := note.getD "Bulk approval by administrator" } }

/-- Failure entry recorded by the bulk loop on a capacity failure. -/
def capacityFailure (cls : Class) (stu : Student) : FailedRequest :=
  { studentName := stu.firstName ++ " " ++ stu.lastName,
    className := cls.grade ++ " - " ++ cls.category,
    reason := "Class is at full capacity" }

theorem approveAllStep_eq_blocked (a t : Nat) (note : Option String) {s0 : State}
    {cr : ClassRequest} {cls : Class} {stu : Student} (ap f : Nat) (l : List FailedRequest)
    (hc : findClass s0 cr.class_ = some cls) (hs : findStudent s0 cr.student = some stu)
    (hb : capacityBlocked cls cr.student) :
    approveAllStep a t note (s0, ap, f, l) cr =
      (s0, ap, f + 1, l ++ [capacityFailure cls stu]) := by
  unfold approveAllStep
  dsimp only
  rw [hc, hs]
  dsimp only
  rw [if_pos hb]
  rfl

theorem approveAllStep_eq_ok (a t : Nat) (note : Option String) {s0 : State}
    {cr : ClassRequest} {cls : Class} {stu : Student} (ap f : Nat) (l : List FailedRequest)
    (hc : findClass s0 cr.class_ = some cls) (hs : findStudent s0 cr.student = some stu)
    (hnb : ¬ capacityBlocked cls cr.student) :
    approveAllStep a t note (s0, ap, f, l) cr =
      (saveRequest (addMembership s0 cr cls stu) (bulkApprovedDoc cr a t note),
        ap + 1, f, l) := by
  unfold approveAllStep
  dsimp only
  rw [hc, hs]
  dsimp only
  rw [if_neg hnb]
  rfl

theorem approveAll_fold_spec (a t : Nat) (note : Option String) :
    ∀ (todo : List ClassRequest) (s0 : State) (ap f : Nat) (l : List FailedRequest),
      (∀ r ∈ todo, (findClass s0 r.class_).isSome ∧ (findStudent s0 r.student).isSome) →
      ((todo.foldl (approveAllStep a t note) (s0, ap, f, l)).2.1 +
          (todo.foldl (approveAllStep a t note) (s0, ap, f, l)).2.2.1 =
        ap + f + todo.length) ∧
      ((todo.foldl (approveAllStep a t note) (s0, ap, f, l)).2.2.2.length + f =
        (todo.foldl (approveAllStep a t note) (s0, ap, f, l)).2.2.1 + l.length) ∧
      (∀ e ∈ (todo.foldl (approveAllStep a t note) (s0, ap, f, l)).2.2.2,
        e ∈ l ∨ e.reason = "Class is at full capacity") := by
  intro todo
  induction todo with
  | nil =>
    intro s0 ap f l hwf
    simp only [List.foldl_nil, List.length_nil]
    exact ⟨by omega, by omega, fun e he => Or.inl he⟩
  | cons cr rest ih =>
    intro s0 ap f l hwf
    have hcr := hwf cr (List.mem_cons_self _ _)
    obtain ⟨cls, hc⟩ := Option.isSome_iff_exists.mp hcr.1
    obtain ⟨stu, hs⟩ := Option.isSome_iff_exists.mp hcr.2
    have hwfrest : ∀ r ∈ rest,
        (findClass s0 r.class_).isSome ∧ (findStudent s0 r.student).isSome :=
      fun r hr => hwf r (List.mem_cons_of_mem _ hr)
    rw [List.foldl_cons]
    by_cases hb : capacityBlocked cls cr.student
    · rw [approveAllStep_eq_blocked a t note ap f l hc hs hb]
      obtain ⟨ih1, ih2, ih3⟩ := ih s0 ap (f + 1) (l ++ [capacityFailure cls stu]) hwfrest
      refine ⟨?_, ?_, ?_⟩
      · rw [ih1, List.length_cons]
        omega
      · simp only [List.length_append, List.length_singleton] at ih2
        omega
      · intro e he
        rcases ih3 e he with hl | hcap
        · rcases List.mem_append.mp hl with hl2 | hl2
          · exact Or.inl hl2
          · right
            have : e = capacityFailure cls stu := by simpa using hl2
            rw [this]
            rfl
        · exact Or.inr hcap
    · rw [approveAllStep_eq_ok a t note ap f l hc hs hb]
      have hwfrest' : ∀ r ∈ rest,
          (findClass (saveRequest (addMembership s0 cr cls stu)
            (bulkApprovedDoc cr a t note)) r.class_).isSome ∧
          (findStudent (saveRequest (addMembership s0 cr cls stu)
            (bulkApprovedDoc cr a t note)) r.student).isSome := by
        intro r hr
        have h0 := hwfrest r hr
        have hl := lookups_isSome_addMembership s0 cr cls stu r.class_
        have hl2 := lookups_isSome_addMembership s0 cr cls stu r.student
        constructor
        · rw [findClass_saveRequest, hl.1]
          exact h0.1
        · rw [findStudent_saveRequest, hl2.2]
          exact h0.2
      obtain ⟨ih1, ih2, ih3⟩ := ih _ (ap + 1) f l hwfrest'
      refine ⟨?_, ?_, ?_⟩
      · rw [ih1, List.length_cons]
        omega
      · exact ih2
      · exact ih3

/-- Loop outcome of `approveAllPendingRequests` over the Pending snapshot:
(final store, approvedCount, failedCount, failure list). -/
def approveAllLoop (a t : Nat) (note : Option String) (s : State) :
    State × Nat × Nat × List FailedRequest :=
  (s.requests.filter (fun r => r.status == Status.Pending)).foldl
    (approveAllStep a t note) (s, 0, 0, [])

theorem approveAll_eq_ok (nf : Bool) (s : State) (a t : Nat) (note : Option String)
    (hne : ¬ (s.requests.filter (fun r => r.status == Status.Pending)).length = 0) :
    (approveAllPendingRequests nf s a t note).2 = .ok
      { message := s!"Successfully approved {(approveAllLoop a t note s).2.1} class requests" ++
          (if 0 < (approveAllLoop a t note s).2.2.1 then
            s!". {(approveAllLoop a t note s).2.2.1} requests failed to approve." else ""),
        approvedCount := (approveAllLoop a t note s).2.1,
        failedCount := (approveAllLoop a t note s).2.2.1,
        failedRequests := if 0 < (approveAllLoop a t note s).2.2.1 then
          some (approveAllLoop a t note s).2.2.2 else none } := by
  unfold approveAllPendingRequests approveAllLoop
  rw [if_neg hne]

/-- C3 (amended): over a snapshot of N pending requests of which M fail the
capacity rule during the sequential pass, `approveAllPendingRequests`
succeeds with `approvedCount = N - M` (indeed `approvedCount + failedCount
= N`: no per-item failure aborts the loop), every failed entry carries the
capacity reason (given every pending request's class and student exist), a
capacity failure performs no writes at all (so it cannot roll back earlier
approvals), and the response carries the detailed failure list exactly when
at least one request failed — with zero failures the field is omitted
(`none`), not an empty list. -/
theorem approveAll_partial_failure_accounting (nf : Bool) (s : State) (a t : Nat)
    (note : Option String)
    (hwf : ∀ r ∈ s.requests.filter (fun r => r.status == Status.Pending),
      (findClass s r.class_).isSome ∧ (findStudent s r.student).isSome)
    (hne : ¬ (s.requests.filter (fun r => r.status == Status.Pending)).length = 0) :
    (∃ summary : ApproveAllSummary,
      (approveAllPendingRequests nf s a t note).2 = .ok summary ∧
      summary.approvedCount + summary.failedCount =
        (s.requests.filter (fun r => r.status == Status.Pending)).length ∧
      summary.failedCount = (approveAllLoop a t note s).2.2.2.length ∧
      (∀ e ∈ (approveAllLoop a t note s).2.2.2, e.reason = "Class is at full capacity") ∧
      summary.failedRequests = (if 0 < summary.failedCount then
        some (approveAllLoop a t note s).2.2.2 else none)) ∧
    (∀ (s0 : State) (ap f : Nat) (l : List FailedRequest) (cr : ClassRequest)
        (cls : Class) (stu : Student),
      findClass s0 cr.class_ = some cls → findStudent s0 cr.student = some stu →
      capacityBlocked cls cr.student →
      approveAllStep a t note (s0, ap, f, l) cr =
        (s0, ap, f + 1, l ++ [capacityFailure cls stu])) := by
  obtain ⟨h1, h2, h3⟩ := approveAll_fold_spec a t note
    (s.requests.filter (fun r => r.status == Status.Pending)) s 0 0 [] hwf
  constructor
  · refine ⟨_, approveAll_eq_ok nf s a t note hne, ?_, ?_, ?_, rfl⟩
    · dsimp only
      unfold approveAllLoop
      simpa using h1
    · dsimp only
      unfold approveAllLoop
      simp only [List.length_nil] at h2
      omega
    · intro e he
      unfold approveAllLoop at he
      rcases h3 e he with hl | hcap
      · exact absurd hl (List.not_mem_nil e)
      · exact hcap
  · intro s0 ap f l cr cls stu hc hs hb
    exact approveAllStep_eq_blocked a t note ap f l hc hs hb

def stateC3 : State :=
  { requests := [{ id := 100, student := 1, class_ := 2, reason := "", status := .Pending,
                   adminResponse := none }],
    students := [{ id := 1, userId := 10, firstName := "A", lastName := "B",
                   status := "Approved", enrolledClasses := [] }],
    classes := [{ id := 2, capacity := 1, isActive := true, type := "Normal",
                  grade := "10", category := "Theory", enrolledStudents := [] }] }

/-- Counterexample to C3 as stated: a run over N = 1 pending requests with
M = 0 capacity failures succeeds with the correct counts but its response
does NOT include the detailed failure list — the `failedRequests` field is
omitted (`none`), refuting "the response always includes the detailed
failure list alongside the counts". -/
theorem approveAll_failure_list_omitted :
    (approveAllPendingRequests false stateC3 9 0 none).2 =
      .ok { message := "Successfully approved 1 class requests",
            approvedCount := 1, failedCount := 0, failedRequests := none } := by
  decide

/-- Witness for the amended C3: over stateC1 (two pending requests, one
capacity-1 class) one request is approved and one fails with the capacity
reason, the counts partition N = 2, and the failure list is included. -/
theorem approveAll_partial_failure_accounting_witness :
    (approveAllPendingRequests false stateC1 9 0 none).2 =
      .ok { message := "Successfully approved 1 class requests. 1 requests failed to approve.",
            approvedCount := 1, failedCount := 1,
            failedRequests := some [{ studentName := "C D", className := "10 - Theory",
                                      reason := "Class is at full capacity" }] } ∧
    1 + 1 = (stateC1.requests.filter (fun r => r.status == Status.Pending)).length := by
  obtain ⟨⟨summary, hok, hcount, hlen, hreason, hlist⟩, hpure⟩ :=
    approveAll_partial_failure_accounting false stateC1 9 0 none (by decide) (by decide)
  exact ⟨by decide, by decide⟩


/-! ## Round trip: approve, reject, re-approve -/

theorem findRequest_after_save {s : State} {i : Nat} {r0 : ClassRequest}
    (r : ClassRequest) (h0 : findRequest s i = some r0) (hid : r.id = i) :
    findRequest (saveRequest s r) i = some r := by
  rw [findRequest_saveRequest, if_pos hid.symm, h0]
  rfl

theorem findClass_after_save {s : State} {i : Nat} {c0 : Class}
    (c : Class) (h0 : findClass s i = some c0) (hid : c.id = i) :
    findClass (saveClass s c) i = some c := by
  rw [findClass_saveClass, if_pos hid.symm, h0]
  rfl

theorem findStudent_after_save {s : State} {i : Nat} {st0 : Student}
    (st : Student) (h0 : findStudent s i = some st0) (hid : st.id = i) :
    findStudent (saveStudent s st) i = some st := by
  rw [findStudent_saveStudent, if_pos hid.symm, h0]
  rfl

theorem filter_append_out {l : List Nat} {x : Nat} (h : l.contains x = false) :
    (l ++ [x]).filter (fun i => !(i == x)) = l := by
  have hx : x ∉ l := not_mem_of_contains_eq_false h
  rw [List.filter_append]
  have h1 : l.filter (fun i => !(i == x)) = l := by
    apply List.filter_eq_self.mpr
    intro a ha
    have : a ≠ x := by
      intro hax
      exact hx (hax ▸ ha)
    simpa using this
  have h2 : ([x] : List Nat).filter (fun i => !(i == x)) = [] := by simp
  rw [h1, h2, List.append_nil]

theorem count_append_self {l : List Nat} {x : Nat} (h : l.contains x = false) :
    (l ++ [x]).count x = 1 := by
  have hx : x ∉ l := not_mem_of_contains_eq_false h
  rw [List.count_append, List.count_eq_zero.mpr hx]
  simp

/-- C5: round-trip — for any Pending request (with its class and student
present, the membership initially absent on both sides and one seat free),
running approve, then changeStatus(Rejected), then changeStatus(Approved)
on that same request leaves exactly one membership entry for the
(student, class) pair in the student's `enrolledClasses` and exactly one in
the class's `enrolledStudents`: no duplicates accumulate across the
transitions. -/
theorem round_trip_single_membership
    (nf1 nf2 nf3 : Bool) (s : State) (rid a1 t1 a2 t2 a3 t3 : Nat)
    (n1 n2 n3 : Option String) (cr : ClassRequest) (cls : Class) (stu : Student)
    (hr : findRequest s rid = some cr) (hp : cr.status = Status.Pending)
    (hc : findClass s cr.class_ = some cls) (hs : findStudent s cr.student = some stu)
    (hnm : cls.enrolledStudents.contains cr.student = false)
    (hnc : stu.enrolledClasses.contains cr.class_ = false)
    (hcap : cls.enrolledStudents.length < cls.capacity) :
    ((findClass ((changeClassRequestStatus nf3
        ((changeClassRequestStatus nf2 ((approveClassRequest nf1 s rid a1 t1 n1).1)
          rid Status.Rejected a2 t2 n2).1)
        rid Status.Approved a3 t3 n3).1) cr.class_).map
      (fun c => c.enrolledStudents.count cr.student) = some 1) ∧
    ((findStudent ((changeClassRequestStatus nf3
        ((changeClassRequestStatus nf2 ((approveClassRequest nf1 s rid a1 t1 n1).1)
          rid Status.Rejected a2 t2 n2).1)
        rid Status.Approved a3 t3 n3).1) cr.student).map
      (fun st => st.enrolledClasses.count cr.class_) = some 1) := by
  have hcid : cls.id = cr.class_ := findById_id hc
  have hsid : stu.id = cr.student := findById_id hs
  have hrid : cr.id = rid := findById_id hr
  have hnb : ¬ capacityBlocked cls cr.student := by
    intro hb
    exact absurd hcap (Nat.not_lt.mpr hb.2)
  -- step 1: approve
  have e1 : (approveClassRequest nf1 s rid a1 t1 n1).1 =
      saveStudent (saveClass (saveRequest s (approvedDoc cr a1 t1 n1))
        { cls with enrolledStudents := cls.enrolledStudents ++ [cr.student] })
        { stu with enrolledClasses := stu.enrolledClasses ++ [cr.class_] } := by
    rw [approve_eq_ok nf1 a1 t1 n1 hr hp hc hs hnb]
    show addMembership (saveRequest s (approvedDoc cr a1 t1 n1)) cr cls stu = _
    unfold addMembership addClassSide addStudentSide
    rw [if_pos hnm, if_pos hnc]
  rw [e1]
  -- facts about s1
  have f1r : findRequest (saveStudent (saveClass (saveRequest s (approvedDoc cr a1 t1 n1))
      { cls with enrolledStudents := cls.enrolledStudents ++ [cr.student] })
      { stu with enrolledClasses := stu.enrolledClasses ++ [cr.class_] }) rid =
      some (approvedDoc cr a1 t1 n1) := by
    rw [findRequest_saveStudent, findRequest_saveClass]
    exact findRequest_after_save _ hr hrid
  have f1c : findClass (saveStudent (saveClass (saveRequest s (approvedDoc cr a1 t1 n1))
      { cls with enrolledStudents := cls.enrolledStudents ++ [cr.student] })
      { stu with enrolledClasses := stu.enrolledClasses ++ [cr.class_] }) cr.class_ =
      some { cls with enrolledStudents := cls.enrolledStudents ++ [cr.student] } := by
    rw [findClass_saveStudent]
    exact findClass_after_save _ (by rw [findClass_saveRequest]; exact hc) hcid
  have f1s : findStudent (saveStudent (saveClass (saveRequest s (approvedDoc cr a1 t1 n1))
      { cls with enrolledStudents := cls.enrolledStudents ++ [cr.student] })
      { stu with enrolledClasses := stu.enrolledClasses ++ [cr.class_] }) cr.student =
      some { stu with enrolledClasses := stu.enrolledClasses ++ [cr.class_] } := by
    exact findStudent_after_save _ (by rw [findStudent_saveClass, findStudent_saveRequest]; exact hs) hsid
  -- step 2: changeStatus to Rejected removes the membership again
  have e2 : (changeClassRequestStatus nf2
      (saveStudent (saveClass (saveRequest s (approvedDoc cr a1 t1 n1))
        { cls with enrolledStudents := cls.enrolledStudents ++ [cr.student] })
        { stu with enrolledClasses := stu.enrolledClasses ++ [cr.class_] })
      rid Status.Rejected a2 t2 n2).1 =
      saveRequest (saveStudent (saveClass
        (saveStudent (saveClass (saveRequest s (approvedDoc cr a1 t1 n1))
          { cls with enrolledStudents := cls.enrolledStudents ++ [cr.student] })
          { stu with enrolledClasses := stu.enrolledClasses ++ [cr.class_] }) cls) stu)
        (statusChangedDoc (approvedDoc cr a1 t1 n1) Status.Rejected a2 t2 n2) := by
    rw [changeStatus_eq_remove nf2 Status.Rejected a2 t2 n2 f1r ⟨rfl, by decide⟩]
    show saveRequest _ _ = saveRequest _ _
    congr 1
    unfold removeMembershipChecked removeClassSide
    rw [show (approvedDoc cr a1 t1 n1).class_ = cr.class_ from rfl,
        show (approvedDoc cr a1 t1 n1).student = cr.student from rfl,
        f1c, f1s]
    dsimp only
    rw [filter_append_out hnm, filter_append_out hnc]
    rw [if_neg (by simp), if_neg (by simp)]
  rw [e2]
  -- facts about s2
  have f2r : findRequest (saveRequest (saveStudent (saveClass
      (saveStudent (saveClass (saveRequest s (approvedDoc cr a1 t1 n1))
        { cls with enrolledStudents := cls.enrolledStudents ++ [cr.student] })
        { stu with enrolledClasses := stu.enrolledClasses ++ [cr.class_] }) cls) stu)
      (statusChangedDoc (approvedDoc cr a1 t1 n1) Status.Rejected a2 t2 n2)) rid =
      some (statusChangedDoc (approvedDoc cr a1 t1 n1) Status.Rejected a2 t2 n2) := by
    exact findRequest_after_save _
      (by rw [findRequest_saveStudent, findRequest_saveClass]; exact f1r) hrid
  have f2c : findClass (saveRequest (saveStudent (saveClass
      (saveStudent (saveClass (saveRequest s (approvedDoc cr a1 t1 n1))
        { cls with enrolledStudents := cls.enrolledStudents ++ [cr.student] })
        { stu with enrolledClasses := stu.enrolledClasses ++ [cr.class_] }) cls) stu)
      (statusChangedDoc (approvedDoc cr a1 t1 n1) Status.Rejected a2 t2 n2)) cr.class_ =
      some cls := by
    rw [findClass_saveRequest, findClass_saveStudent]
    exact findClass_after_save _ f1c hcid
  have f2s : findStudent (saveRequest (saveStudent (saveClass
      (saveStudent (saveClass (saveRequest s (approvedDoc cr a1 t1 n1))
        { cls with enrolledStudents := cls.enrolledStudents ++ [cr.student] })
        { stu with enrolledClasses := stu.enrolledClasses ++ [cr.class_] }) cls) stu)
      (statusChangedDoc (approvedDoc cr a1 t1 n1) Status.Rejected a2 t2 n2)) cr.student =
      some stu := by
    rw [findStudent_saveRequest]
    exact findStudent_after_save _ (by rw [findStudent_saveClass]; exact f1s) hsid
  -- step 3: changeStatus back to Approved re-adds exactly one entry
  have e3 : (changeClassRequestStatus nf3 (saveRequest (saveStudent (saveClass
      (saveStudent (saveClass (saveRequest s (approvedDoc cr a1 t1 n1))
        { cls with enrolledStudents := cls.enrolledStudents ++ [cr.student] })
        { stu with enrolledClasses := stu.enrolledClasses ++ [cr.class_] }) cls) stu)
      (statusChangedDoc (approvedDoc cr a1 t1 n1) Status.Rejected a2 t2 n2))
      rid Status.Approved a3 t3 n3).1 =
      saveRequest (saveStudent (saveClass (saveRequest (saveStudent (saveClass
        (saveStudent (saveClass (saveRequest s (approvedDoc cr a1 t1 n1))
          { cls with enrolledStudents := cls.enrolledStudents ++ [cr.student] })
          { stu with enrolledClasses := stu.enrolledClasses ++ [cr.class_] }) cls) stu)
        (statusChangedDoc (approvedDoc cr a1 t1 n1) Status.Rejected a2 t2 n2))
        { cls with enrolledStudents := cls.enrolledStudents ++ [cr.student] })
        { stu with enrolledClasses := stu.enrolledClasses ++ [cr.class_] })
        (statusChangedDoc (statusChangedDoc (approvedDoc cr a1 t1 n1)
          Status.Rejected a2 t2 n2) Status.Approved a3 t3 n3) := by
    rw [changeStatus_eq_add_ok nf3 Status.Approved a3 t3 n3 f2r
        ⟨by simp [statusChangedDoc], rfl⟩ f2c f2s hnb]
    show saveRequest _ _ = saveRequest _ _
    congr 1
    unfold addMembership addClassSide addStudentSide
    rw [show (statusChangedDoc (approvedDoc cr a1 t1 n1) Status.Rejected a2 t2 n2).class_ =
          cr.class_ from rfl,
        show (statusChangedDoc (approvedDoc cr a1 t1 n1) Status.Rejected a2 t2 n2).student =
          cr.student from rfl,
        if_pos hnm, if_pos hnc]
  rw [e3]
  -- final lookups
  have f3c : findClass (saveRequest (saveStudent (saveClass (saveRequest (saveStudent (saveClass
      (saveStudent (saveClass (saveRequest s (approvedDoc cr a1 t1 n1))
        { cls with enrolledStudents := cls.enrolledStudents ++ [cr.student] })
        { stu with enrolledClasses := stu.enrolledClasses ++ [cr.class_] }) cls) stu)
      (statusChangedDoc (approvedDoc cr a1 t1 n1) Status.Rejected a2 t2 n2))
      { cls with enrolledStudents := cls.enrolledStudents ++ [cr.student] })
      { stu with enrolledClasses := stu.enrolledClasses ++ [cr.class_] })
      (statusChangedDoc (statusChangedDoc (approvedDoc cr a1 t1 n1)
        Status.Rejected a2 t2 n2) Status.Approved a3 t3 n3)) cr.class_ =
      some { cls with enrolledStudents := cls.enrolledStudents ++ [cr.student] } := by
    rw [findClass_saveRequest, findClass_saveStudent]
    exact findClass_after_save _ f2c hcid
  have f3s : findStudent (saveRequest (saveStudent (saveClass (saveRequest (saveStudent (saveClass
      (saveStudent (saveClass (saveRequest s (approvedDoc cr a1 t1 n1))
        { cls with enrolledStudents := cls.enrolledStudents ++ [cr.student] })
        { stu with enrolledClasses := stu.enrolledClasses ++ [cr.class_] }) cls) stu)
      (statusChangedDoc (approvedDoc cr a1 t1 n1) Status.Rejected a2 t2 n2))
      { cls with enrolledStudents := cls.enrolledStudents ++ [cr.student] })
      { stu with enrolledClasses := stu.enrolledClasses ++ [cr.class_] })
      (statusChangedDoc (statusChangedDoc (approvedDoc cr a1 t1 n1)
        Status.Rejected a2 t2 n2) Status.Approved a3 t3 n3)) cr.student =
      some { stu with enrolledClasses := stu.enrolledClasses ++ [cr.class_] } := by
    rw [findStudent_saveRequest]
    exact findStudent_after_save _ (by rw [findStudent_saveClass]; exact f2s) hsid
  constructor
  · rw [f3c]
    show some ((cls.enrolledStudents ++ [cr.student]).count cr.student) = some 1
    rw [count_append_self hnm]
  · rw [f3s]
    show some ((stu.enrolledClasses ++ [cr.class_]).count cr.class_) = some 1
    rw [count_append_self hnc]

def stateC5 : State :=
  { requests := [{ id := 100, student := 1, class_ := 2, reason := "", status := .Pending,
                   adminResponse := none }],
    students := [{ id := 1, userId := 10, firstName := "A", lastName := "B",
                   status := "Approved", enrolledClasses := [] }],
    classes := [{ id := 2, capacity := 1, isActive := true, type := "Normal",
                  grade := "10", category := "Theory", enrolledStudents := [] }] }

/-- Witness for C5: approve, reject, re-approve the single request of
`stateC5`; both membership lists end with exactly one entry for the pair. -/
theorem round_trip_single_membership_witness :
    ((findClass ((changeClassRequestStatus false
        ((changeClassRequestStatus false ((approveClassRequest false stateC5 100 9 0 none).1)
          100 Status.Rejected 9 1 none).1)
        100 Status.Approved 9 2 none).1) 2).map
      (fun c => c.enrolledStudents.count 1) = some 1) ∧
    ((findStudent ((changeClassRequestStatus false
        ((changeClassRequestStatus false ((approveClassRequest false stateC5 100 9 0 none).1)
          100 Status.Rejected 9 1 none).1)
        100 Status.Approved 9 2 none).1) 1).map
      (fun st => st.enrolledClasses.count 2) = some 1) :=
  round_trip_single_membership false false false stateC5 100 9 0 9 1 9 2 none none none
    { id := 100, student := 1, class_ := 2, reason := "", status := .Pending,
      adminResponse := none }
    { id := 2, capacity := 1, isActive := true, type := "Normal",
      grade := "10", category := "Theory", enrolledStudents := [] }
    { id := 1, userId := 10, firstName := "A", lastName := "B",
      status := "Approved", enrolledClasses := [] }
    (by decide) (by decide) (by decide) (by decide) (by decide) (by decide) (by decide)

end ClassRequestController
